import Mathlib

/-!
# OSPRay COI worker: command dispatch over the handle registry

A shallow embedding of `ospray/api/coidevice_worker.cpp` and of the type
catalogue and the command-line handling (`init`, `removeArgs`) of
`ospray/common/OSPCommon.cpp`.

Conventions of the embedding.

* A `Handle` is the 64-bit integer the host minted, a `Ptr` is an address of
  the worker; both are natural numbers and `0` is the null value of each.
* Byte memory is block structured: `State.mem` maps the base address of a
  region (a bulk buffer mapped by the transport, the return area of a verb, a
  `new char[]` block) to its bytes, a byte being a natural number below 256.
  Multi-byte values are little endian; a pointer and a `Handle` take 8 bytes.
* Engine objects live in `State.heap`, keyed by their address.
* A verb ends in one of three ways (`Outcome`): it returns, it throws a C++
  exception (the state reached at the `throw` is kept), or it runs into
  undefined behaviour (null or dangling dereference, access outside a region).
* The argument blob of a verb is decoded by a fixed schema; the verbs below
  take the decoded leading arguments as parameters.
-/

set_option autoImplicit false

namespace ospray

/-- A host-minted 64-bit identity; `0` is `NULL_HANDLE`. -/
abbrev Handle := Nat

/-- An address in the worker; `0` is the null pointer. -/
abbrev Ptr := Nat

/-! ## Type catalogue (`OSPCommon.cpp`) -/

/-- The enumerators of `OSPDataType` that `OSPCommon.cpp` names, and `raw v`
for an integer value that is none of them (the verbs cast a 32-bit integer
read from the argument stream to the enumeration). The numeric values of the
enumerators are declared in a header that is not part of the sources. -/
inductive OSPDataType where
  | OSP_VOID_PTR | OSP_OBJECT | OSP_CAMERA | OSP_DATA | OSP_DEVICE
  | OSP_FRAMEBUFFER | OSP_GEOMETRY | OSP_LIGHT | OSP_MATERIAL | OSP_MODEL
  | OSP_RENDERER | OSP_TEXTURE | OSP_TRANSFER_FUNCTION | OSP_VOLUME
  | OSP_PIXEL_OP | OSP_STRING
  | OSP_CHAR | OSP_UCHAR | OSP_UCHAR2 | OSP_UCHAR3 | OSP_UCHAR4 | OSP_USHORT
  | OSP_INT | OSP_INT2 | OSP_INT3 | OSP_INT4
  | OSP_UINT | OSP_UINT2 | OSP_UINT3 | OSP_UINT4
  | OSP_LONG | OSP_LONG2 | OSP_LONG3 | OSP_LONG4
  | OSP_ULONG | OSP_ULONG2 | OSP_ULONG3 | OSP_ULONG4
  | OSP_FLOAT | OSP_FLOAT2 | OSP_FLOAT3 | OSP_FLOAT4 | OSP_FLOAT3A
  | OSP_DOUBLE
  | OSP_UNKNOWN
  | raw (v : Int)
  deriving DecidableEq, Repr

/-- C++ exceptions thrown by the sources: `std::runtime_error` with its
message, the string literal that `ospray_coi_set_value` throws, and the
`std::bad_alloc` of a `new char[size]` that cannot be met. -/
inductive Exn where
  | runtime_error (what : String)
  | c_string (what : String)
  | bad_alloc
  deriving DecidableEq, Repr

/-- Width of a pointer on the 64-bit target, `sizeof(void *)`. -/
def sizeof_ptr : Nat := 8

/-- The switch of `sizeOf(const OSPDataType)`, `OSPCommon.cpp` lines 133-185;
a value outside the switch throws `std::runtime_error`. -/
def sizeOf (type : OSPDataType) : Except Exn Nat :=
  match type with
  | .OSP_VOID_PTR | .OSP_OBJECT | .OSP_CAMERA | .OSP_DATA | .OSP_DEVICE
  | .OSP_FRAMEBUFFER | .OSP_GEOMETRY | .OSP_LIGHT | .OSP_MATERIAL | .OSP_MODEL
  | .OSP_RENDERER | .OSP_TEXTURE | .OSP_TRANSFER_FUNCTION | .OSP_VOLUME
  | .OSP_PIXEL_OP | .OSP_STRING => .ok sizeof_ptr
  | .OSP_CHAR => .ok 1
  | .OSP_UCHAR => .ok 1
  | .OSP_UCHAR2 => .ok 2
  | .OSP_UCHAR3 => .ok 3
  | .OSP_UCHAR4 => .ok 4
  | .OSP_USHORT => .ok 2
  | .OSP_INT => .ok 4
  | .OSP_INT2 => .ok 8
  | .OSP_INT3 => .ok 12
  | .OSP_INT4 => .ok 16
  | .OSP_UINT => .ok 4
  | .OSP_UINT2 => .ok 8
  | .OSP_UINT3 => .ok 12
  | .OSP_UINT4 => .ok 16
  | .OSP_LONG => .ok 8
  | .OSP_LONG2 => .ok 16
  | .OSP_LONG3 => .ok 24
  | .OSP_LONG4 => .ok 32
  | .OSP_ULONG => .ok 8
  | .OSP_ULONG2 => .ok 16
  | .OSP_ULONG3 => .ok 24
  | .OSP_ULONG4 => .ok 32
  | .OSP_FLOAT => .ok 4
  | .OSP_FLOAT2 => .ok 8
  | .OSP_FLOAT3 => .ok 12
  | .OSP_FLOAT4 => .ok 16
  | .OSP_FLOAT3A => .ok 16
  | .OSP_DOUBLE => .ok 8
  | .OSP_UNKNOWN | .raw _ => .error (.runtime_error "unknown OSPDataType")

/-! ## Byte memory -/

/-- Byte `k` of a region, `0` outside it. -/
def getByte (bs : List Nat) (k : Nat) : Nat := bs.getD k 0

/-- Little-endian value of the `n` bytes at offset `off`. -/
def loadLE (bs : List Nat) (off : Nat) : Nat → Nat
  | 0 => 0
  | n + 1 => getByte bs off + 256 * loadLE bs (off + 1) n

/-- Overwrite the `n` bytes at offset `off` with the little-endian bytes of
`v` (truncated to `n` bytes). -/
def storeLE (bs : List Nat) (off : Nat) : Nat → Nat → List Nat
  | 0, _ => bs
  | n + 1, v => storeLE (bs.set off (v % 256)) (off + 1) n (v / 256)

/-- Content of 8-byte slot `i` of a region: `((uint64 *)bs)[i]`. -/
def slot (bs : List Nat) (i : Nat) : Nat := loadLE bs (8 * i) 8

/-- Checked read of slot `i`: `none` stands for an access outside the region. -/
def readSlot (bs : List Nat) (i : Nat) : Option Nat :=
  if 8 * i + 8 ≤ bs.length then some (slot bs i) else none

/-- In-place write of slot `i` (the caller has checked the bounds). -/
def writeSlot (bs : List Nat) (i : Nat) (v : Nat) : List Nat := storeLE bs (8 * i) 8 v

/-! ## Managed objects and the handle registry -/

/-- IEEE-754 single precision value, kept as its 32-bit pattern. -/
abbrev float32 := Nat

/-- Value of an entry of a property bag: the tagged union behind the
overloads of `ManagedObject::set` that `ospray_coi_set_value` calls. -/
inductive Param where
  | int (v : Int)
  | int2 (v : Int × Int)
  | int3 (v : Int × Int × Int)
  | int4 (v : Int × Int × Int × Int)
  | uint (v : Nat)
  | uint2 (v : Nat × Nat)
  | uint3 (v : Nat × Nat × Nat)
  | uint4 (v : Nat × Nat × Nat × Nat)
  | float (v : float32)
  | float2 (v : float32 × float32)
  | float3 (v : float32 × float32 × float32)
  | float4 (v : float32 × float32 × float32 × float32)
  | string (v : String)
  | object (v : Ptr)
  deriving DecidableEq, Repr

/-- Fields of a `Data` object, in the order of its constructor call
`Data(numItems, type, init, flags)`. -/
structure Data where
  numItems : Int
  type : OSPDataType
  data : Ptr
  flags : Nat
  deriving DecidableEq, Repr

/-- What an engine object is besides a `ManagedObject`: a `Model` with its
`geometry` vector, a `Data`, or an object of another class, named by `kind`. -/
inductive Payload where
  | model (geometry : List Ptr)
  | data (d : Data)
  | other (kind : String)
  deriving DecidableEq, Repr

/-- An engine object: reference count, property bag, class-specific part. -/
structure ManagedObject where
  refCount : Nat
  params : List (String × Param)
  payload : Payload
  deriving DecidableEq, Repr

/-- Result code of the transport; a failure carries the name that
`COIResultGetName` gives it. -/
inductive COIRESULT where
  | COI_SUCCESS
  | failure (name : String)
  deriving DecidableEq, Repr

/-- Parts of the engine and of the public header that the worker uses and
that are not part of the sources: the flag constant of `Data`, the material
factory of a renderer (`renderer->createMaterial`, applied to the renderer
object), the global material factory and the texture factory. A factory
yields the object it constructs, or `none` for a null pointer. -/
structure Engine where
  OSP_DATA_SHARED_BUFFER : Nat
  Renderer_createMaterial : ManagedObject → String → Option ManagedObject
  Material_createMaterial : String → Option ManagedObject
  Texture2D_createTexture : Int → Int → OSPDataType → Ptr → Nat → Option ManagedObject

/-- The arguments of the constructor call
`InterleavedTiledLoadBalancer(deviceID, numDevices)`; the class is declared in
`render/loadbalancer.h`, which is not part of the sources. -/
structure InterleavedTiledLoadBalancer where
  deviceID : Int
  numDevices : Int
  deriving DecidableEq, Repr

/-- State of the worker process.
`objectByHandle` is the handle registry, `heap` the live engine objects,
`mem` the byte regions, `bufferRefs` the retention count the transport keeps
for each bulk buffer, `brk` the address the next `new` returns, `available`
the number of bytes that `new char[]` can still provide. The other fields are
the globals `uploadBuffer`, `ospray::debugMode`, `ospray::logLevel` and
`TiledLoadBalancer::instance` (`none` for `NULL`). -/
structure State where
  objectByHandle : Handle → Option Ptr := fun _ => none
  heap : Ptr → Option ManagedObject := fun _ => none
  mem : Ptr → Option (List Nat) := fun _ => none
  bufferRefs : Ptr → Nat := fun _ => 0
  brk : Ptr := 1
  available : Nat := 2 ^ 32
  uploadBuffer : Ptr := 0
  debugMode : Int := 0
  logLevel : Int := 0
  loadBalancer : Option InterleavedTiledLoadBalancer := none

/-- How a verb ends: it returns, it throws (with the state reached at the
`throw`), or its behaviour is undefined. -/
inductive Outcome where
  | ok (s : State)
  | raised (e : Exn) (s : State)
  | undefined

/-- Modelled from the spec: `Handle::lookup` (`handle.h`, not part of the
sources). "`lookup(h)` returns the object; `NULL_HANDLE` returns none"; an
unbound handle yields no object either. The result is the C++ pointer, `0`
for no object; the reference count is not changed. -/
def Handle.lookup (s : State) (h : Handle) : Ptr :=
  if h = 0 then 0 else (s.objectByHandle h).getD 0

/-- Modelled from the spec: `Handle::assign` (`handle.h`, not part of the
sources). "`assign(h, obj)` binds; duplicate assign to the same handle is an
error". -/
def Handle.assign (s : State) (h : Handle) (object : Ptr) : Outcome :=
  match s.objectByHandle h with
  | some _ => .raised (.runtime_error "duplicate assign to handle") s
  | none => .ok { s with objectByHandle := Function.update s.objectByHandle h (some object) }

/-- The object that the pointer `p` refers to; `none` stands for the
dereference of a null or dangling pointer. -/
def State.deref (s : State) (p : Ptr) : Option ManagedObject :=
  if p = 0 then none else s.heap p

/-- Modelled from the spec: `refInc` (the intrusive reference counter of
`ManagedObject`, not part of the sources) raises the reference count of the
object by one. The call `p->refInc()` is undefined on a null or dangling
pointer. -/
def refInc (s : State) (p : Ptr) : Option State :=
  match s.deref p with
  | none => none
  | some o =>
    some { s with heap := Function.update s.heap p (some { o with refCount := o.refCount + 1 }) }

/-- Modelled from the spec: the constructor of `Data` (`data.h`, not part of
the sources): a managed object with reference count 1 ("initially 1 at
construction"), an empty property bag and the four fields given. -/
def Data.new (numItems : Int) (type : OSPDataType) (init : Ptr) (flags : Nat) : ManagedObject :=
  { refCount := 1, params := [], payload := .data ⟨numItems, type, init, flags⟩ }

/-- The expression `new T(...)` for a single engine object: the object is
placed at the fresh address `brk`, which is returned together with the new
state. The few bytes of one object are taken to be available. -/
def State.alloc (s : State) (o : ManagedObject) : Ptr × State :=
  (s.brk, { s with heap := Function.update s.heap s.brk (some o), brk := s.brk + 1 })

/-- The expression `new char[size]` followed by `bzero`: a fresh region of
`size` zero bytes, taken from the bytes still available; `none` when the
request exceeds them, where `new` throws `std::bad_alloc`. -/
def State.allocZeroed (s : State) (size : Nat) : Option (Ptr × State) :=
  if size ≤ s.available then
    some (s.brk, { s with mem := Function.update s.mem s.brk (some (List.replicate size 0)),
                          brk := s.brk + 1,
                          available := s.available - size })
  else none

namespace coi

open OSPDataType COIRESULT

/-- The loop shared by `ospray_coi_new_data` (lines 138-144) and
`ospray_coi_upload_data_done` (lines 188-194), run for `k` more iterations
from index `i` over the region at `base`:
`if (in[i]) { out[i] = in[i].lookup(); out[i]->refInc(); } else out[i] = 0;`
where `in` and `out` alias the same 8-byte slots. -/
def rewriteLoop (base : Ptr) : Nat → Nat → State → Option State
  | 0, _, s => some s
  | k + 1, i, s =>
    match s.mem base with
    | none => none
    | some bs =>
      match readSlot bs i with
      | none => none
      | some h =>
        if h ≠ 0 then
          let p := Handle.lookup s h
          let s1 := { s with mem := Function.update s.mem base (some (writeSlot bs i p)) }
          match refInc s1 p with
          | none => none
          | some s2 => rewriteLoop base k (i + 1) s2
        else
          rewriteLoop base k (i + 1)
            { s with mem := Function.update s.mem base (some (writeSlot bs i 0)) }

/-- The verb `ospray_coi_new_data`, lines 110-155. `bufferPtr0` is
`bufferPtr[0]`, `res` the code that `COIBufferAddRef(bufferPtr[0])` returns. -/
def ospray_coi_new_data (E : Engine) (s : State) (handle : Handle) (nitems : Int)
    (format : OSPDataType) (flags : Nat) (bufferPtr0 : Ptr) (res : COIRESULT) : Outcome :=
  match res with
  | .failure name => .raised (.runtime_error ("error in coibufferaddref: " ++ name)) s
  | .COI_SUCCESS =>
    let s0 : State :=
      { s with bufferRefs := Function.update s.bufferRefs bufferPtr0 (s.bufferRefs bufferPtr0 + 1) }
    if format = OSP_STRING then
      .raised (.runtime_error "data arrays of strings not currently supported on coi device ...") s0
    else if format = OSP_OBJECT then
      match rewriteLoop bufferPtr0 nitems.toNat 0 s0 with
      | none => .undefined
      | some s1 =>
        let (data, s2) := s1.alloc
          (Data.new nitems format bufferPtr0 (flags ||| E.OSP_DATA_SHARED_BUFFER))
        Handle.assign s2 handle data
    else
      let (data, s2) := s0.alloc
        (Data.new nitems format bufferPtr0 (flags ||| E.OSP_DATA_SHARED_BUFFER))
      Handle.assign s2 handle data

/-- The verb `ospray_coi_upload_data_done`, lines 158-199. -/
def ospray_coi_upload_data_done (s : State) (handle : Handle) (nitems : Int)
    (format : OSPDataType) (_flags : Nat) : Outcome :=
  let data := Handle.lookup s handle
  match sizeOf format with
  | .error e => .raised e s
  | .ok _ =>
    if format = OSP_STRING then
      .raised (.runtime_error "data arrays of strings not currently supported on coi device ...") s
    else if format = OSP_OBJECT then
      match s.deref data with
      | none => .undefined
      | some o =>
        match o.payload with
        | .data d =>
          match rewriteLoop d.data nitems.toNat 0 s with
          | none => .undefined
          | some s1 => .ok s1
        | _ => .undefined
    else .ok s

/-- The verb `ospray_coi_create_new_empty_data`, lines 222-251; the byte
count is computed in `size_t`, modulo `2^64`. When `new char[size]` throws,
nothing has been created or bound yet. -/
def ospray_coi_create_new_empty_data (E : Engine) (s : State) (handle : Handle) (nitems : Int)
    (format : OSPDataType) (flags : Nat) : Outcome :=
  if format = OSP_STRING then
    .raised (.runtime_error "data arrays of strings not currently supported on coi device ...") s
  else
    match sizeOf format with
    | .error e => .raised e s
    | .ok width =>
      let size := ((nitems * (width : Int)) % (2 ^ 64 : Int)).toNat
      match s.allocZeroed size with
      | none => .raised .bad_alloc s
      | some (mem, s1) =>
        let (data, s2) := s1.alloc
          (Data.new nitems format mem (flags ||| E.OSP_DATA_SHARED_BUFFER))
        Handle.assign s2 handle data

/-- The verb `ospray_coi_add_geometry`, lines 520-535:
`m->geometry.push_back((Geometry*)geom.lookup())`. -/
def ospray_coi_add_geometry (s : State) (model geom : Handle) : Outcome :=
  let m := Handle.lookup s model
  match s.deref m with
  | none => .undefined
  | some o =>
    match o.payload with
    | .model geometry =>
      .ok { s with
            heap := Function.update s.heap m
              (some { o with payload := .model (geometry ++ [Handle.lookup s geom]) }) }
    | _ => .undefined

/-- The predicate `GeometryLocator::operator()`, lines 590-595: `ptr == &*g`. -/
def GeometryLocator (ptr : Ptr) (g : Ptr) : Bool := decide (ptr = g)

/-- The call `std::find_if(first, last, pred)` on a vector: the index of the
first element that satisfies `pred`, the length of the vector (the position
of `end()`) when there is none. -/
def find_if (pred : Ptr → Bool) : List Ptr → Nat
  | [] => 0
  | g :: rest => if pred g then 0 else find_if pred rest + 1

/-- The verb `ospray_coi_remove_geometry`, lines 598-621. The vector holds
the addresses of the geometries; the reference counts that its smart pointers
(`embree::Ref`) keep are outside this embedding. -/
def ospray_coi_remove_geometry (s : State) (_model _geometry : Handle) : Outcome :=
  let model := Handle.lookup s _model
  let geometry := Handle.lookup s _geometry
  match s.deref model with
  | none => .undefined
  | some o =>
    match o.payload with
    | .model geom =>
      let it := find_if (GeometryLocator geometry) geom
      if it ≠ geom.length then
        .ok { s with
              heap := Function.update s.heap model
                (some { o with payload := .model (geom.eraseIdx it) }) }
      else .ok s
    | _ => .undefined

end coi

/-- Modelled from the spec: the overloads of `ManagedObject::set`
(`managed.h`, not part of the sources): the value is stored under `name` in
the property bag, "a property bag keyed by string name"; an entry of that
name is replaced, the other entries stay. -/
def setParam : List (String × Param) → String → Param → List (String × Param)
  | [], name, v => [(name, v)]
  | (k, x) :: rest, name, v =>
    if k = name then (name, v) :: rest else (k, x) :: setParam rest name v

/-- The entry of a property bag under `name`. -/
def findParam : List (String × Param) → String → Option Param
  | [], _ => none
  | (k, x) :: rest, name => if k = name then some x else findParam rest name

/-- The call `obj->set(name, v)`. -/
def ManagedObject.set (o : ManagedObject) (name : String) (v : Param) : ManagedObject :=
  { o with params := setParam o.params name v }

/-- The reads of the argument stream (`DataStream`, declared in
`coidevice_common.h`, which is not part of the sources) that
`ospray_coi_set_value` performs behind the property name: each read takes the
stream at its current position and yields the value with the stream advanced.
`σ` is the type of stream positions. -/
structure DataStream (σ : Type) where
  get_OSPDataType : σ → OSPDataType × σ
  get_int32 : σ → Int × σ
  get_vec2i : σ → (Int × Int) × σ
  get_vec3i : σ → (Int × Int × Int) × σ
  get_vec4i : σ → (Int × Int × Int × Int) × σ
  get_uint32 : σ → Nat × σ
  get_vec2ui : σ → (Nat × Nat) × σ
  get_vec3ui : σ → (Nat × Nat × Nat) × σ
  get_vec4ui : σ → (Nat × Nat × Nat × Nat) × σ
  get_float : σ → float32 × σ
  get_vec2f : σ → (float32 × float32) × σ
  get_vec3f : σ → (float32 × float32 × float32) × σ
  get_vec4f : σ → (float32 × float32 × float32 × float32) × σ
  getString : σ → String × σ
  get_Handle : σ → Handle × σ

namespace coi

open OSPDataType COIRESULT

/-- The `switch (type)` of `ospray_coi_set_value`, lines 672-693: the value
that the selected case reads from the stream and hands to `obj->set`; `none`
is the `default:` case. -/
def setValueCase {σ : Type} (D : DataStream σ) (s : State) (type : OSPDataType) (args : σ) :
    Option Param :=
  match type with
  | OSP_INT => some (.int (D.get_int32 args).1)
  | OSP_INT2 => some (.int2 (D.get_vec2i args).1)
  | OSP_INT3 => some (.int3 (D.get_vec3i args).1)
  | OSP_INT4 => some (.int4 (D.get_vec4i args).1)
  | OSP_UINT => some (.uint (D.get_uint32 args).1)
  | OSP_UINT2 => some (.uint2 (D.get_vec2ui args).1)
  | OSP_UINT3 => some (.uint3 (D.get_vec3ui args).1)
  | OSP_UINT4 => some (.uint4 (D.get_vec4ui args).1)
  | OSP_FLOAT => some (.float (D.get_float args).1)
  | OSP_FLOAT2 => some (.float2 (D.get_vec2f args).1)
  | OSP_FLOAT3 => some (.float3 (D.get_vec3f args).1)
  | OSP_FLOAT4 => some (.float4 (D.get_vec4f args).1)
  | OSP_STRING => some (.string (D.getString args).1)
  | OSP_OBJECT => some (.object (Handle.lookup s (D.get_Handle args).1))
  | _ => none

/-- The verb `ospray_coi_set_value`, lines 654-694. `target` and `name` are
the two leading arguments, `args` is the stream behind them: the type tag
followed by the value. -/
def ospray_coi_set_value {σ : Type} (D : DataStream σ) (s : State) (target : Handle)
    (name : String) (args : σ) : Outcome :=
  let obj := Handle.lookup s target
  if obj = 0 then .ok s
  else
    let (type, args) := D.get_OSPDataType args
    match setValueCase D s type args with
    | none => .raised (.c_string "ospray_coi_set_value no timplemented for given data type") s
    | some v =>
      match s.deref obj with
      | none => .undefined
      | some o => .ok { s with heap := Function.update s.heap obj (some (o.set name v)) }

/-- The store `*(int*)p = v`: the four bytes at the start of the region at
`p` receive the little-endian bytes of `v`; `none` when the region is not
mapped or shorter than an `int`. -/
def storeInt (s : State) (p : Ptr) (v : Nat) : Option State :=
  match s.mem p with
  | none => none
  | some bs =>
    if 4 ≤ bs.length then
      some { s with mem := Function.update s.mem p (some (storeLE bs 0 4 v)) }
    else none

/-- The verb `ospray_coi_new_material`, lines 433-461. `retVal` is the
address of the return area. A factory that constructs a material places it at
the fresh address `brk`. -/
def ospray_coi_new_material (E : Engine) (s : State) (handle _renderer : Handle)
    (type : String) (retVal : Ptr) : Outcome :=
  let renderer := Handle.lookup s _renderer
  let fromRenderer : Option (Option ManagedObject) :=
    if renderer ≠ 0 then
      match s.deref renderer with
      | none => none
      | some r => some (E.Renderer_createMaterial r type)
    else some none
  match fromRenderer with
  | none => .undefined
  | some mat0 =>
    let mat : Option ManagedObject :=
      match mat0 with
      | some m => some m
      | none => E.Material_createMaterial type
    match mat with
    | some m =>
      let (p, s1) := s.alloc m
      match storeInt s1 retVal 1 with
      | none => .undefined
      | some s2 => Handle.assign s2 handle p
    | none =>
      match storeInt s retVal 0 with
      | none => .undefined
      | some s2 => .ok s2

/-- The verb `ospray_coi_new_texture2d`, lines 496-517. `res` is the code
that `COIBufferAddRef(bufferPtr[0])` returns; the verb does not look at it. -/
def ospray_coi_new_texture2d (E : Engine) (s : State) (handle : Handle) (width height : Int)
    (type : OSPDataType) (flags : Nat) (bufferPtr0 : Ptr) (res : COIRESULT) : Outcome :=
  let s0 : State :=
    match res with
    | .COI_SUCCESS =>
      { s with
        bufferRefs := Function.update s.bufferRefs bufferPtr0 (s.bufferRefs bufferPtr0 + 1) }
    | .failure _ => s
  match E.Texture2D_createTexture width height type bufferPtr0 flags with
  | some tx =>
    let (p, s1) := s0.alloc tx
    Handle.assign s1 handle p
  | none => Handle.assign s0 handle 0

end coi

/-! ## Vocabulary of the statements -/

/-- The object `o` after `c` calls of `refInc`. -/
def ManagedObject.retained (c : Nat) (o : ManagedObject) : ManagedObject :=
  { o with refCount := o.refCount + c }

/-- Number of the slots `i, ..., i + k - 1` of the region `bs` that hold a
non-null handle which `lookup` resolves to the address `p`. -/
def slotsNaming (s : State) (bs : List Nat) (i k : Nat) (p : Ptr) : Nat :=
  (List.range' i k).countP (fun j => decide (slot bs j ≠ 0 ∧ Handle.lookup s (slot bs j) = p))

/-- The material that the renderer named by the handle `_renderer` creates
for `type`: `none` when the handle resolves to no object or the renderer does
not recognise the type. -/
def rendererMaterial (E : Engine) (s : State) (_renderer : Handle) (type : String) :
    Option ManagedObject :=
  (s.deref (Handle.lookup s _renderer)).bind (fun r => E.Renderer_createMaterial r type)

/-- The value of the `int` at the start of a return area. -/
def returnInt (rs : List Nat) : Nat := loadLE rs 0 4

/-! ## Concrete inputs -/

/-- An engine that knows the material `OBJMaterial` globally, lets a renderer
of kind `scivis` create a material of its own for that name, and constructs a
texture for every request; the flag constant is bit 0. -/
def exampleEngine : Engine where
  OSP_DATA_SHARED_BUFFER := 1
  Renderer_createMaterial := fun r type =>
    if r.payload = .other "scivis" ∧ type = "OBJMaterial" then
      some { refCount := 1, params := [], payload := .other "scivis::OBJMaterial" }
    else none
  Material_createMaterial := fun type =>
    if type = "OBJMaterial" then
      some { refCount := 1, params := [], payload := .other "OBJMaterial" }
    else none
  Texture2D_createTexture := fun _ _ _ _ _ =>
    some { refCount := 1, params := [], payload := .other "Texture2D" }

/-- A geometry object with reference count 1. -/
def exampleGeometry : ManagedObject :=
  { refCount := 1, params := [], payload := .other "geometry" }

/-- Scenario S2 before `new_data`: geometries at the addresses 100 and 101,
bound to the handles 7 and 9, and a bulk buffer at address 50 that holds the
two handles. -/
def exampleS2 : State where
  objectByHandle := fun h => if h = 7 then some 100 else if h = 9 then some 101 else none
  heap := fun p => if p = 100 ∨ p = 101 then some exampleGeometry else none
  mem := fun p => if p = 50 then some [7, 0, 0, 0, 0, 0, 0, 0, 9, 0, 0, 0, 0, 0, 0, 0] else none
  bufferRefs := fun _ => 0
  brk := 200

/-- A state in which the host has minted the handle 100 for the geometry
that the worker holds at the address 100; the bulk buffer at address 50
holds that one handle. -/
def exampleAlias : State where
  objectByHandle := fun h => if h = 100 then some 100 else none
  heap := fun p => if p = 100 then some exampleGeometry else none
  mem := fun p => if p = 50 then some [100, 0, 0, 0, 0, 0, 0, 0] else none
  bufferRefs := fun _ => 0
  brk := 200

/-- Chunked path before `upload_data_done`: the `Data` at address 300, bound
to the handle 11, owns the region at address 60, into which the handles 7 and
9 of two geometries have been uploaded. -/
def exampleChunked : State where
  objectByHandle := fun h =>
    if h = 7 then some 100 else if h = 9 then some 101 else if h = 11 then some 300 else none
  heap := fun p =>
    if p = 100 ∨ p = 101 then some exampleGeometry
    else if p = 300 then some (Data.new 2 .OSP_OBJECT 60 1)
    else none
  mem := fun p => if p = 60 then some [7, 0, 0, 0, 0, 0, 0, 0, 9, 0, 0, 0, 0, 0, 0, 0] else none
  bufferRefs := fun _ => 0
  brk := 301

/-- Scenario S6 after the three `add_geometry` calls: the model at address
400, bound to the handle 20, holds the geometries `g1, g2, g1`, where `g1` is
at address 100 (handle 7) and `g2` at address 101 (handle 9); a third
geometry at address 102 (handle 13) is in no model. -/
def exampleS6 : State where
  objectByHandle := fun h =>
    if h = 7 then some 100 else if h = 9 then some 101 else if h = 13 then some 102
    else if h = 20 then some 400 else none
  heap := fun p =>
    if p = 100 ∨ p = 101 ∨ p = 102 then some exampleGeometry
    else if p = 400 then some { refCount := 1, params := [], payload := .model [100, 101, 100] }
    else none
  mem := fun _ => none
  bufferRefs := fun _ => 0
  brk := 401

/-- Scenario S6 before the `add_geometry` calls: as `exampleS6`, with an
empty model. -/
def exampleS6Empty : State :=
  { exampleS6 with
    heap := fun p =>
      if p = 100 ∨ p = 101 ∨ p = 102 then some exampleGeometry
      else if p = 400 then some { refCount := 1, params := [], payload := .model [] }
      else none }

/-- Sequential composition of verbs: the next verb runs when the previous
one returned. -/
def Outcome.andThen (o : Outcome) (f : State → Outcome) : Outcome :=
  match o with
  | .ok s => f s
  | other => other

/-- The geometry sequence of the model at address `p` after a run of verbs. -/
def Outcome.geometryAt (o : Outcome) (p : Ptr) : Option (List Ptr) :=
  match o with
  | .ok s =>
    match s.heap p with
    | some { payload := .model geometry, .. } => some geometry
    | _ => none
  | _ => none

/-- An argument stream for the examples: a position is the type tag that the
next `get<OSPDataType>` yields together with the words of the value behind
it, one list entry per 32-bit word (64-bit for a handle, one per character
for a string). -/
def exampleStream : DataStream (OSPDataType × List Nat) where
  get_OSPDataType := fun a => (a.1, a)
  get_int32 := fun a => ((a.2.getD 0 0 : Nat), (a.1, a.2.drop 1))
  get_vec2i := fun a => (((a.2.getD 0 0 : Nat), (a.2.getD 1 0 : Nat)), (a.1, a.2.drop 2))
  get_vec3i := fun a =>
    (((a.2.getD 0 0 : Nat), (a.2.getD 1 0 : Nat), (a.2.getD 2 0 : Nat)), (a.1, a.2.drop 3))
  get_vec4i := fun a =>
    (((a.2.getD 0 0 : Nat), (a.2.getD 1 0 : Nat), (a.2.getD 2 0 : Nat), (a.2.getD 3 0 : Nat)),
      (a.1, a.2.drop 4))
  get_uint32 := fun a => (a.2.getD 0 0, (a.1, a.2.drop 1))
  get_vec2ui := fun a => ((a.2.getD 0 0, a.2.getD 1 0), (a.1, a.2.drop 2))
  get_vec3ui := fun a => ((a.2.getD 0 0, a.2.getD 1 0, a.2.getD 2 0), (a.1, a.2.drop 3))
  get_vec4ui := fun a =>
    ((a.2.getD 0 0, a.2.getD 1 0, a.2.getD 2 0, a.2.getD 3 0), (a.1, a.2.drop 4))
  get_float := fun a => (a.2.getD 0 0, (a.1, a.2.drop 1))
  get_vec2f := fun a => ((a.2.getD 0 0, a.2.getD 1 0), (a.1, a.2.drop 2))
  get_vec3f := fun a => ((a.2.getD 0 0, a.2.getD 1 0, a.2.getD 2 0), (a.1, a.2.drop 3))
  get_vec4f := fun a =>
    ((a.2.getD 0 0, a.2.getD 1 0, a.2.getD 2 0, a.2.getD 3 0), (a.1, a.2.drop 4))
  getString := fun a => (String.mk (a.2.map Char.ofNat), (a.1, []))
  get_Handle := fun a => (a.2.getD 0 0, (a.1, a.2.drop 1))

/-- A camera whose property bag holds the direction `(0, 0, 1.0f)`. -/
def exampleCamera : ManagedObject :=
  { refCount := 1,
    params := [("dir", .float3 (0, 0, 1065353216))],
    payload := .other "perspective" }

/-- Scenario S4 before `set_value`: a camera at address 500, bound to the
handle 30; the handle 99 is not bound. -/
def exampleS4 : State where
  objectByHandle := fun h => if h = 30 then some 500 else none
  heap := fun p => if p = 500 then some exampleCamera else none
  mem := fun _ => none
  bufferRefs := fun _ => 0
  brk := 501

/-- Scenario S5 before `new_material`: a renderer of kind `ao` at address
600, bound to the handle 35, a renderer of kind `scivis` at address 601,
bound to the handle 36, and a return area of eight bytes `0xAA` at address
70. -/
def exampleS5 : State where
  objectByHandle := fun h => if h = 35 then some 600 else if h = 36 then some 601 else none
  heap := fun p =>
    if p = 600 then some { refCount := 1, params := [], payload := .other "ao" }
    else if p = 601 then some { refCount := 1, params := [], payload := .other "scivis" }
    else none
  mem := fun p => if p = 70 then some [170, 170, 170, 170, 170, 170, 170, 170] else none
  bufferRefs := fun _ => 0
  brk := 602

/-! ## Type names and texture formats (`OSPCommon.cpp`) -/

/-- The function `typeForString`, `OSPCommon.cpp` lines 187-209; `none` is
the null pointer, `strcmp(string, name) == 0` is equality of the strings. -/
def typeForString (string : Option String) : OSPDataType :=
  match string with
  | none => .OSP_UNKNOWN
  | some string =>
    if string = "char" then .OSP_CHAR
    else if string = "double" then .OSP_DOUBLE
    else if string = "float" then .OSP_FLOAT
    else if string = "float2" then .OSP_FLOAT2
    else if string = "float3" then .OSP_FLOAT3
    else if string = "float4" then .OSP_FLOAT4
    else if string = "int" then .OSP_INT
    else if string = "int2" then .OSP_INT2
    else if string = "int3" then .OSP_INT3
    else if string = "int4" then .OSP_INT4
    else if string = "uchar" then .OSP_UCHAR
    else if string = "uchar2" then .OSP_UCHAR2
    else if string = "uchar3" then .OSP_UCHAR3
    else if string = "uchar4" then .OSP_UCHAR4
    else if string = "ushort" then .OSP_USHORT
    else if string = "uint" then .OSP_UINT
    else if string = "uint2" then .OSP_UINT2
    else if string = "uint3" then .OSP_UINT3
    else if string = "uint4" then .OSP_UINT4
    else .OSP_UNKNOWN

/-- The switch of `stringForType`, `OSPCommon.cpp` lines 211-264; a value
outside the switch throws `std::runtime_error`. -/
def stringForType (type : OSPDataType) : Except Exn String :=
  match type with
  | .OSP_VOID_PTR => .ok "void_ptr"
  | .OSP_OBJECT => .ok "object"
  | .OSP_CAMERA => .ok "camera"
  | .OSP_DATA => .ok "data"
  | .OSP_DEVICE => .ok "device"
  | .OSP_FRAMEBUFFER => .ok "framebuffer"
  | .OSP_GEOMETRY => .ok "geometry"
  | .OSP_LIGHT => .ok "light"
  | .OSP_MATERIAL => .ok "material"
  | .OSP_MODEL => .ok "model"
  | .OSP_RENDERER => .ok "renderer"
  | .OSP_TEXTURE => .ok "texture"
  | .OSP_TRANSFER_FUNCTION => .ok "transfer_function"
  | .OSP_VOLUME => .ok "volume"
  | .OSP_PIXEL_OP => .ok "pixel_op"
  | .OSP_STRING => .ok "string"
  | .OSP_CHAR => .ok "char"
  | .OSP_UCHAR => .ok "uchar"
  | .OSP_UCHAR2 => .ok "uchar2"
  | .OSP_UCHAR3 => .ok "uchar3"
  | .OSP_UCHAR4 => .ok "uchar4"
  | .OSP_USHORT => .ok "ushort"
  | .OSP_INT => .ok "int"
  | .OSP_INT2 => .ok "int2"
  | .OSP_INT3 => .ok "int3"
  | .OSP_INT4 => .ok "int4"
  | .OSP_UINT => .ok "uint"
  | .OSP_UINT2 => .ok "uint2"
  | .OSP_UINT3 => .ok "uint3"
  | .OSP_UINT4 => .ok "uint4"
  | .OSP_LONG => .ok "long"
  | .OSP_LONG2 => .ok "long2"
  | .OSP_LONG3 => .ok "long3"
  | .OSP_LONG4 => .ok "long4"
  | .OSP_ULONG => .ok "ulong"
  | .OSP_ULONG2 => .ok "ulong2"
  | .OSP_ULONG3 => .ok "ulong3"
  | .OSP_ULONG4 => .ok "ulong4"
  | .OSP_FLOAT => .ok "float"
  | .OSP_FLOAT2 => .ok "float2"
  | .OSP_FLOAT3 => .ok "float3"
  | .OSP_FLOAT4 => .ok "float4"
  | .OSP_FLOAT3A => .ok "float3a"
  | .OSP_DOUBLE => .ok "double"
  | .OSP_UNKNOWN | .raw _ => .error (.runtime_error "unknown OSPDataType")

/-- The composition `typeForString(stringForType(t).c_str())`; an exception
of `stringForType` propagates. -/
def typeOfName (t : OSPDataType) : Except Exn OSPDataType :=
  match stringForType t with
  | .ok name => .ok (typeForString (some name))
  | .error e => .error e

/-- The enumerators of `OSPTextureFormat` that `OSPCommon.cpp` names, and
`raw v` for an integer value that is none of them. -/
inductive OSPTextureFormat where
  | OSP_TEXTURE_RGBA8 | OSP_TEXTURE_SRGBA | OSP_TEXTURE_RGBA32F
  | OSP_TEXTURE_RGB8 | OSP_TEXTURE_SRGB | OSP_TEXTURE_RGB32F
  | OSP_TEXTURE_R8 | OSP_TEXTURE_R32F
  | raw (v : Int)
  deriving DecidableEq, Repr

/-- The switch of `sizeOf(const OSPTextureFormat)`, `OSPCommon.cpp` lines
266-282, with `sizeof(uint32) = 4`, `sizeof(vec4f) = 16`, `sizeof(vec3uc) = 3`,
`sizeof(vec3f) = 12`, `sizeof(uint8) = 1`, `sizeof(float) = 4`; a value outside
the switch throws `std::runtime_error`. -/
def OSPTextureFormat.sizeOf (type : OSPTextureFormat) : Except Exn Nat :=
  match type with
  | .OSP_TEXTURE_RGBA8 | .OSP_TEXTURE_SRGBA => .ok 4
  | .OSP_TEXTURE_RGBA32F => .ok 16
  | .OSP_TEXTURE_RGB8 | .OSP_TEXTURE_SRGB => .ok 3
  | .OSP_TEXTURE_RGB32F => .ok 12
  | .OSP_TEXTURE_R8 => .ok 1
  | .OSP_TEXTURE_R32F => .ok 4
  | .raw _ => .error (.runtime_error "unknown OSPTextureFormat")

/-- The 19 names that `typeForString` compares with, in its order. -/
def knownTypeNames : List String :=
  ["char", "double", "float", "float2", "float3", "float4", "int", "int2", "int3", "int4",
   "uchar", "uchar2", "uchar3", "uchar4", "ushort", "uint", "uint2", "uint3", "uint4"]

/-- The tags that `typeForString` can return besides `OSP_UNKNOWN`. -/
def namedTypes : List OSPDataType :=
  [.OSP_CHAR, .OSP_DOUBLE, .OSP_FLOAT, .OSP_FLOAT2, .OSP_FLOAT3, .OSP_FLOAT4,
   .OSP_INT, .OSP_INT2, .OSP_INT3, .OSP_INT4,
   .OSP_UCHAR, .OSP_UCHAR2, .OSP_UCHAR3, .OSP_UCHAR4, .OSP_USHORT,
   .OSP_UINT, .OSP_UINT2, .OSP_UINT3, .OSP_UINT4]

/-- The comparisons of `typeForString` as a table, in the order of the
source: the name compared with and the tag returned on a match. -/
def typeNameTable : List (String × OSPDataType) :=
  [("char", .OSP_CHAR), ("double", .OSP_DOUBLE), ("float", .OSP_FLOAT),
   ("float2", .OSP_FLOAT2), ("float3", .OSP_FLOAT3), ("float4", .OSP_FLOAT4),
   ("int", .OSP_INT), ("int2", .OSP_INT2), ("int3", .OSP_INT3), ("int4", .OSP_INT4),
   ("uchar", .OSP_UCHAR), ("uchar2", .OSP_UCHAR2), ("uchar3", .OSP_UCHAR3),
   ("uchar4", .OSP_UCHAR4), ("ushort", .OSP_USHORT), ("uint", .OSP_UINT),
   ("uint2", .OSP_UINT2), ("uint3", .OSP_UINT3), ("uint4", .OSP_UINT4)]

/-- A chain of `if (strcmp(s, name) == 0) return tag;` over a table, ending in
`return OSP_UNKNOWN`. -/
def strcmpChain : List (String × OSPDataType) → String → OSPDataType
  | [], _ => .OSP_UNKNOWN
  | (name, tag) :: rest, s => if s = name then tag else strcmpChain rest s

/-- Modelled from the spec: the destructor of `Data` (`data.h`, not part of
the sources). "`SHARED_BUFFER` data objects never invoke the local deallocator
on destruction"; a `Data` without the flag frees its region. -/
def Data.destroy (E : Engine) (s : State) (d : Data) : State :=
  if d.flags &&& E.OSP_DATA_SHARED_BUFFER ≠ 0 then s
  else { s with mem := Function.update s.mem d.data none }

/-- Scenario S3 at the start: no handle is bound, the staging buffer `B` of
eight bytes `0xAA` is mapped at address 80. -/
def exampleS3 : State where
  objectByHandle := fun _ => none
  heap := fun _ => none
  mem := fun p => if p = 80 then some [170, 170, 170, 170, 170, 170, 170, 170] else none
  bufferRefs := fun _ => 0
  brk := 700

/-- The call `memcpy(dst + begin, src, size)` on the contents of two regions:
the `size` bytes at offset `begin` of `dst` are replaced by the first `size`
bytes of `src` (the caller has checked the bounds). -/
def memcpy (dst : List Nat) (begin : Nat) (src : List Nat) (size : Nat) : List Nat :=
  dst.take begin ++ src.take size ++ dst.drop (begin + size)

namespace coi

/-- The verb `ospray_coi_pin_upload_buffer`, lines 419-430:
`uploadBuffer = bufferPtr[0]`. -/
def ospray_coi_pin_upload_buffer (s : State) (bufferPtr0 : Ptr) : Outcome :=
  .ok { s with uploadBuffer := bufferPtr0 }

/-- The verb `ospray_coi_upload_data_chunk`, lines 202-219:
`memcpy((char*)data->data + begin, uploadBuffer, size)` with `begin` and
`size` of type `int64`. The behaviour is undefined when `data` is no live
`Data`, when a region is not mapped, when the copy leaves the destination or
the source region, and when source and destination overlap. -/
def ospray_coi_upload_data_chunk (s : State) (handle : Handle) (begin size : Int) : Outcome :=
  let data := Handle.lookup s handle
  match s.deref data with
  | none => .undefined
  | some o =>
    match o.payload with
    | .data d =>
      match s.mem d.data, s.mem s.uploadBuffer with
      | some dst, some src =>
        if 0 ≤ begin ∧ 0 ≤ size ∧ begin + size ≤ dst.length ∧ size ≤ src.length ∧
            (d.data = s.uploadBuffer → size ≤ begin) then
          .ok { s with
                mem := Function.update s.mem d.data
                  (some (memcpy dst begin.toNat src size.toNat)) }
        else .undefined
      | _, _ => .undefined
    | _ => .undefined

end coi

/-- Scenario S3 after `create_new_empty_data(h_d, 2, FLOAT, 0)`: the `Data`
at address 701, bound to the handle 11, owns the zeroed region of eight bytes
at address 700; the staging buffer `B` of eight bytes `0xAA` is mapped at
address 80. -/
def exampleS3Created : State where
  objectByHandle := fun h => if h = 11 then some 701 else none
  heap := fun p => if p = 701 then some (Data.new 2 .OSP_FLOAT 700 1) else none
  mem := fun p =>
    if p = 700 then some [0, 0, 0, 0, 0, 0, 0, 0]
    else if p = 80 then some [170, 170, 170, 170, 170, 170, 170, 170]
    else none
  bufferRefs := fun _ => 0
  brk := 702
  available := 2 ^ 32 - 8

/-- Modelled from the spec: the tile assignment of
`InterleavedTiledLoadBalancer` (`render/loadbalancer.h`, not part of the
sources). "Given a framebuffer partitioned into fixed-size tiles indexed in
row-major order, device d of N processes tile indices i with i mod N == d." -/
def InterleavedTiledLoadBalancer.processes (b : InterleavedTiledLoadBalancer) (i : Nat) :
    Bool :=
  decide ((i : Int) % b.numDevices = b.deviceID)

/-- Modelled from the spec: the tile indices among `0 .. T-1` that the
balancer processes, in increasing order. -/
def InterleavedTiledLoadBalancer.tiles (b : InterleavedTiledLoadBalancer) (T : Nat) :
    List Nat :=
  (List.range T).filter b.processes

namespace coi

/-- The verb `ospray_coi_initialize`, lines 42-70. The four parameters are
`deviceInfo[0]` to `deviceInfo[3]`; the verb sets the two diagnostic globals
and installs `new InterleavedTiledLoadBalancer(deviceID, numDevices)`. -/
def ospray_coi_initialize (s : State) (deviceID numDevices debugMode logLevel : Int) :
    Outcome :=
  .ok { s with
        debugMode := debugMode,
        logLevel := logLevel,
        loadBalancer := some ⟨deviceID, numDevices⟩ }

end coi

/-- The tiles of a frame of `T` tiles that the load balancer installed by a
run of verbs processes; none when the run did not return or no balancer is
installed. -/
def Outcome.tiles (o : Outcome) (T : Nat) : List Nat :=
  match o with
  | .ok s =>
    match s.loadBalancer with
    | some b => b.tiles T
    | none => []
  | _ => []

/-! ## Command line (`OSPCommon.cpp`) -/

/-- The variables of `init`: the argument count `ac`, the array `av` (the
entry behind its last one is the null pointer that ends `argv`), and the three
fields of the current device that the options set. `reads` is a ghost
variable: every read `av[j]` appends the pair of `j` and the value of `ac` at
that moment. -/
structure InitState where
  ac : Int
  av : List String
  debugMode : Bool := false
  numThreads : Int := 0
  logLevel : Int := 0
  reads : List (Nat × Int) := []
  deriving DecidableEq, Repr

/-- The read `av[j]`; `none` when `j` is not an index of the array (the
dereference of the null pointer behind it, or of memory beyond). -/
def InitState.read (st : InitState) (j : Nat) : Option (String × InitState) :=
  match st.av[j]? with
  | none => none
  | some a => some (a, { st with reads := st.reads ++ [(j, st.ac)] })

/-- The loop of `removeArgs`, `OSPCommon.cpp` lines 72-73, run for `k` more
iterations from index `i`: `av[i-howMany] = av[i]`. -/
def removeArgsLoop (howMany : Nat) : Nat → Nat → InitState → Option InitState
  | 0, _, st => some st
  | k + 1, i, st =>
    match st.read i with
    | none => none
    | some (a, st1) =>
      if i - howMany < st1.av.length ∧ howMany ≤ i then
        removeArgsLoop howMany k (i + 1) { st1 with av := st1.av.set (i - howMany) a }
      else none

/-- The function `removeArgs(ac, av, where, howMany)`, `OSPCommon.cpp` lines
70-75: the loop runs for `i = where+howMany, ..., ac-1`, then
`ac -= howMany`. -/
def removeArgs (st : InitState) (where_ howMany : Nat) : Option InitState :=
  match removeArgsLoop howMany (st.ac - ((where_ + howMany : Nat) : Int)).toNat
      (where_ + howMany) st with
  | none => none
  | some st1 => some { st1 with ac := st1.ac - howMany }

/-- How `init` ends: the loop is left, an exception is thrown, the behaviour
is undefined, or the iteration bound of the embedding is used up. -/
inductive InitResult where
  | done (st : InitState)
  | raised (e : Exn)
  | undefined
  | outOfFuel
  deriving DecidableEq, Repr

/-- The loop `for (int i=1;i<ac;) { ... }` of `init`, `OSPCommon.cpp` lines
89-110, from index `i`, for at most `fuel` iterations. `atoi` is the function
of the C library. -/
def initLoop (atoi : String → Int) : Nat → Nat → InitState → InitResult
  | 0, i, st => if (i : Int) < st.ac then .outOfFuel else .done st
  | fuel + 1, i, st =>
    if (i : Int) < st.ac then
      match st.read i with
      | none => .undefined
      | some (parm, st) =>
        if parm = "--osp:debug" then
          match removeArgs { st with debugMode := true, numThreads := 1 } i 1 with
          | none => .undefined
          | some st => initLoop atoi fuel i st
        else if parm = "--osp:verbose" then
          match removeArgs { st with logLevel := 1 } i 1 with
          | none => .undefined
          | some st => initLoop atoi fuel i st
        else if parm = "--osp:vv" then
          match removeArgs { st with logLevel := 2 } i 1 with
          | none => .undefined
          | some st => initLoop atoi fuel i st
        else if parm = "--osp:loglevel" then
          match st.read (i + 1) with
          | none => .undefined
          | some (value, st) =>
            match removeArgs { st with logLevel := atoi value } i 2 with
            | none => .undefined
            | some st => initLoop atoi fuel i st
        else if parm = "--osp:numthreads" ∨ parm = "--osp:num-threads" then
          match st.read (i + 1) with
          | none => .undefined
          | some (value, st) =>
            match removeArgs { st with numThreads := atoi value } i 2 with
            | none => .undefined
            | some st => initLoop atoi fuel i st
        else initLoop atoi fuel (i + 1) st
    else .done st

/-- The function `init`, `OSPCommon.cpp` lines 77-112. `sse41` tells whether
`getCPUFeatures()` reports SSE4.1, `hasArgs` whether `_ac` and `_av` are both
non-null. Every iteration of the loop raises `i` or lowers `ac`, so `ac`
iterations suffice. -/
def init (atoi : String → Int) (sse41 : Bool) (hasArgs : Bool) (st : InitState) : InitResult :=
  if sse41 = false then
    .raised (.runtime_error
      "Error. OSPRay only runs on CPUs that support at least SSE4.1.")
  else if hasArgs then initLoop atoi st.ac.toNat 1 st
  else .done st

/-- The arguments that `init` counts at the end: `av[0 .. ac-1]`. -/
def InitState.args (st : InitState) : List String := st.av.take st.ac.toNat

/-- The options of `init` without a value operand. -/
def isFlagOption (a : String) : Prop :=
  a = "--osp:debug" ∨ a = "--osp:verbose" ∨ a = "--osp:vv"

instance (a : String) : Decidable (isFlagOption a) := by
  unfold isFlagOption; infer_instance

/-- The options of `init` with a value operand. -/
def isValueOption (a : String) : Prop :=
  a = "--osp:loglevel" ∨ a = "--osp:numthreads" ∨ a = "--osp:num-threads"

instance (a : String) : Decidable (isValueOption a) := by
  unfold isValueOption; infer_instance

/-- The arguments behind `argv[0]` that are neither a recognized `--osp:`
option nor the value operand of one, in their order; the arguments are read
from left to right, and an argument taken as a value operand is not read as an
option. -/
def keptArgs : List String → List String
  | [] => []
  | a :: rest =>
    if isFlagOption a then keptArgs rest
    else if isValueOption a then
      match rest with
      | [] => []
      | _ :: rest' => keptArgs rest'
    else a :: keptArgs rest

/-- Every option with a value operand that is not itself taken as a value is
followed by at least one more argument. -/
def operandsPresent : List String → Bool
  | [] => true
  | a :: rest =>
    if isFlagOption a then operandsPresent rest
    else if isValueOption a then
      match rest with
      | [] => false
      | _ :: rest' => operandsPresent rest'
    else operandsPresent rest

/-- A stand-in for `atoi` in the examples: the decimal value of a string of
digits, `0` for any other string. -/
def exampleAtoi (a : String) : Int :=
  if a.toList.all Char.isDigit then
    (a.toList.foldl (fun n c => 10 * n + (c.toNat - 48)) 0 : Nat)
  else 0

/-- A command line with two unknown arguments around `--osp:loglevel 3` and a
third behind `--osp:vv`. -/
def exampleArgv : InitState :=
  { ac := 7, av := ["prog", "a", "--osp:loglevel", "3", "b", "--osp:vv", "c"] }

/-- A command line that ends in `--osp:loglevel` without its operand, behind
an unknown argument and an option without a value. -/
def exampleTrailingOption : InitState :=
  { ac := 4, av := ["prog", "--osp:debug", "foo", "--osp:loglevel"] }

/-- The tags of the catalogue: the cases of the switch of `stringForType`
(`OSPCommon.cpp` lines 214-257), in its order; the switch of `sizeOf` has the
same cases. -/
def catalogueTypes : List OSPDataType :=
  [.OSP_VOID_PTR, .OSP_OBJECT, .OSP_CAMERA, .OSP_DATA, .OSP_DEVICE, .OSP_FRAMEBUFFER,
   .OSP_GEOMETRY, .OSP_LIGHT, .OSP_MATERIAL, .OSP_MODEL, .OSP_RENDERER, .OSP_TEXTURE,
   .OSP_TRANSFER_FUNCTION, .OSP_VOLUME, .OSP_PIXEL_OP, .OSP_STRING,
   .OSP_CHAR, .OSP_UCHAR, .OSP_UCHAR2, .OSP_UCHAR3, .OSP_UCHAR4, .OSP_USHORT,
   .OSP_INT, .OSP_INT2, .OSP_INT3, .OSP_INT4,
   .OSP_UINT, .OSP_UINT2, .OSP_UINT3, .OSP_UINT4,
   .OSP_LONG, .OSP_LONG2, .OSP_LONG3, .OSP_LONG4,
   .OSP_ULONG, .OSP_ULONG2, .OSP_ULONG3, .OSP_ULONG4,
   .OSP_FLOAT, .OSP_FLOAT2, .OSP_FLOAT3, .OSP_FLOAT4, .OSP_FLOAT3A, .OSP_DOUBLE]

/-! ## Lemmas on byte memory -/

theorem getByte_set (bs : List Nat) (i k a : Nat) :
    getByte (bs.set i a) k = if i = k ∧ i < bs.length then a else getByte bs k := by
  unfold getByte
  rw [List.getD_eq_getElem?_getD, List.getD_eq_getElem?_getD, List.getElem?_set]
  by_cases h : i = k
  · subst h
    by_cases hl : i < bs.length
    · simp [hl]
    · simp [hl, List.getElem?_eq_none (Nat.le_of_not_lt hl)]
  · simp [h]

theorem length_storeLE (n : Nat) : ∀ (bs : List Nat) (off v : Nat),
    (storeLE bs off n v).length = bs.length := by
  induction n with
  | zero => intro bs off v; rfl
  | succ n ih => intro bs off v; simp [storeLE, ih]

theorem getByte_storeLE_outside (n : Nat) : ∀ (bs : List Nat) (off v k : Nat),
    k < off ∨ off + n ≤ k → getByte (storeLE bs off n v) k = getByte bs k := by
  induction n with
  | zero => intro bs off v k _; rfl
  | succ n ih =>
    intro bs off v k hk
    have h1 : k < off + 1 ∨ off + 1 + n ≤ k := by omega
    have h2 : ¬ (off = k ∧ off < bs.length) := by omega
    simp only [storeLE]
    rw [ih _ _ _ _ h1, getByte_set, if_neg h2]

theorem loadLE_congr (m : Nat) : ∀ (bs bs' : List Nat) (off : Nat),
    (∀ k, off ≤ k → k < off + m → getByte bs' k = getByte bs k) →
    loadLE bs' off m = loadLE bs off m := by
  induction m with
  | zero => intro bs bs' off _; rfl
  | succ m ih =>
    intro bs bs' off h
    simp only [loadLE]
    rw [h off (Nat.le_refl _) (by omega), ih bs bs' (off + 1) (fun k h1 h2 => h k (by omega) (by omega))]

theorem loadLE_storeLE_disjoint (bs : List Nat) (off n v off2 m : Nat)
    (h : off2 + m ≤ off ∨ off + n ≤ off2) :
    loadLE (storeLE bs off n v) off2 m = loadLE bs off2 m := by
  apply loadLE_congr
  intro k h1 h2
  exact getByte_storeLE_outside n bs off v k (by omega)

theorem loadLE_storeLE_same (n : Nat) : ∀ (bs : List Nat) (off v : Nat),
    off + n ≤ bs.length → loadLE (storeLE bs off n v) off n = v % 256 ^ n := by
  induction n with
  | zero => intro bs off v _; simp [loadLE, Nat.mod_one]
  | succ n ih =>
    intro bs off v h
    simp only [storeLE, loadLE]
    rw [getByte_storeLE_outside n _ (off + 1) _ off (by omega), getByte_set,
      if_pos ⟨rfl, by omega⟩, ih _ _ _ (by simp; omega), pow_succ, Nat.mul_comm (256 ^ n) 256,
      Nat.mod_mul]

theorem length_writeSlot (bs : List Nat) (i v : Nat) :
    (writeSlot bs i v).length = bs.length := length_storeLE 8 bs (8 * i) v

theorem slot_writeSlot_same (bs : List Nat) (i v : Nat) (h : 8 * i + 8 ≤ bs.length)
    (hv : v < 2 ^ 64) : slot (writeSlot bs i v) i = v := by
  unfold slot writeSlot
  rw [loadLE_storeLE_same 8 bs (8 * i) v h]
  exact Nat.mod_eq_of_lt (by norm_num at hv ⊢; exact hv)

theorem slot_writeSlot_other (bs : List Nat) (i j v : Nat) (h : j ≠ i) :
    slot (writeSlot bs i v) j = slot bs j := by
  unfold slot writeSlot
  exact loadLE_storeLE_disjoint bs (8 * i) 8 v (8 * j) 8 (by omega)

theorem readSlot_eq (bs : List Nat) (i : Nat) (h : 8 * i + 8 ≤ bs.length) :
    readSlot bs i = some (slot bs i) := by
  simp [readSlot, h]

theorem lookup_congr (s s' : State) (h : s'.objectByHandle = s.objectByHandle) (x : Handle) :
    Handle.lookup s' x = Handle.lookup s x := by
  simp [Handle.lookup, h]

theorem lookup_of_bound (s : State) (x : Handle) (p : Ptr) (hx : x ≠ 0)
    (h : s.objectByHandle x = some p) : Handle.lookup s x = p := by
  simp [Handle.lookup, hx, h]

theorem retained_zero (o : ManagedObject) : o.retained 0 = o := rfl

theorem retained_retained (a b : Nat) (o : ManagedObject) :
    (o.retained a).retained b = o.retained (a + b) := by
  simp [ManagedObject.retained, Nat.add_assoc]

theorem slotsNaming_zero (s : State) (bs : List Nat) (i : Nat) (p : Ptr) :
    slotsNaming s bs i 0 p = 0 := by
  simp [slotsNaming]

theorem slotsNaming_succ (s : State) (bs : List Nat) (i k : Nat) (p : Ptr) :
    slotsNaming s bs i (k + 1) p =
      (if slot bs i ≠ 0 ∧ Handle.lookup s (slot bs i) = p then 1 else 0)
        + slotsNaming s bs (i + 1) k p := by
  simp only [slotsNaming, List.range'_succ, List.countP_cons]
  by_cases h : slot bs i ≠ 0 ∧ Handle.lookup s (slot bs i) = p
  · simp [h]; omega
  · simp [h]

theorem slotsNaming_congr (s s' : State) (bs bs' : List Nat) (i k : Nat) (p : Ptr)
    (hreg : s'.objectByHandle = s.objectByHandle)
    (hslot : ∀ j, i ≤ j → j < i + k → slot bs' j = slot bs j) :
    slotsNaming s' bs' i k p = slotsNaming s bs i k p := by
  induction k generalizing i with
  | zero => simp [slotsNaming_zero]
  | succ k ih =>
    rw [slotsNaming_succ, slotsNaming_succ, hslot i (Nat.le_refl _) (by omega),
      lookup_congr s s' hreg, ih (i + 1) (fun j h1 h2 => hslot j (by omega) (by omega))]

/-- No slot of the range names `p`: the count is zero. -/
theorem slotsNaming_eq_zero (s : State) (bs : List Nat) (p : Ptr) (k : Nat) : ∀ (i : Nat),
    (∀ j, i ≤ j → j < i + k → slot bs j = 0 ∨ Handle.lookup s (slot bs j) ≠ p) →
    slotsNaming s bs i k p = 0 := by
  induction k with
  | zero => intro i _; exact slotsNaming_zero s bs i p
  | succ k ih =>
    intro i h
    rw [slotsNaming_succ, ih (i + 1) (fun j h1 h2 => h j (by omega) (by omega))]
    have hi : ¬ (slot bs i ≠ 0 ∧ Handle.lookup s (slot bs i) = p) := by
      rcases h i (Nat.le_refl _) (by omega) with h0 | h0
      · exact fun hc => hc.1 h0
      · exact fun hc => h0 hc.2
    rw [if_neg hi]

/-- Exactly one slot of the range names `p`: the count is one. -/
theorem slotsNaming_eq_one (s : State) (bs : List Nat) (p : Ptr) (j0 : Nat) (k : Nat) :
    ∀ (i : Nat), i ≤ j0 → j0 < i + k →
    slot bs j0 ≠ 0 → Handle.lookup s (slot bs j0) = p →
    (∀ j, i ≤ j → j < i + k → j ≠ j0 → slot bs j = 0 ∨ Handle.lookup s (slot bs j) ≠ p) →
    slotsNaming s bs i k p = 1 := by
  induction k with
  | zero => intro i h1 h2; omega
  | succ k ih =>
    intro i h1 h2 hne hlk hothers
    rw [slotsNaming_succ]
    by_cases hij : i = j0
    · subst hij
      rw [if_pos ⟨hne, hlk⟩,
        slotsNaming_eq_zero s bs p k (i + 1)
          (fun j h3 h4 => hothers j (by omega) (by omega) (by omega))]
    · have hi : ¬ (slot bs i ≠ 0 ∧ Handle.lookup s (slot bs i) = p) := by
        rcases hothers i (Nat.le_refl _) (by omega) hij with h0 | h0
        · exact fun hc => hc.1 h0
        · exact fun hc => h0 hc.2
      rw [if_neg hi, ih (i + 1) (by omega) (by omega) hne hlk
        (fun j h3 h4 h5 => hothers j (by omega) (by omega) h5)]

namespace coi

open OSPDataType COIRESULT

theorem rewriteLoop_succ (base : Ptr) (k i : Nat) (s : State) :
    rewriteLoop base (k + 1) i s =
      match s.mem base with
      | none => none
      | some bs =>
        match readSlot bs i with
        | none => none
        | some h =>
          if h ≠ 0 then
            match refInc
                { s with
                  mem := Function.update s.mem base (some (writeSlot bs i (Handle.lookup s h))) }
                (Handle.lookup s h) with
            | none => none
            | some s2 => rewriteLoop base k (i + 1) s2
          else
            rewriteLoop base k (i + 1)
              { s with mem := Function.update s.mem base (some (writeSlot bs i 0)) } := by
  rfl

/-- One iteration on a null handle: the slot is cleared. -/
theorem rewriteLoop_step_null (base : Ptr) (k i : Nat) (s : State) (bs : List Nat)
    (hmem : s.mem base = some bs) (hlen : 8 * i + 8 ≤ bs.length) (h0 : slot bs i = 0) :
    rewriteLoop base (k + 1) i s = rewriteLoop base k (i + 1)
      { s with mem := Function.update s.mem base (some (writeSlot bs i 0)) } := by
  rw [rewriteLoop_succ, hmem]
  simp only [readSlot_eq bs i hlen, h0, ne_eq, not_true_eq_false, if_false]

/-- One iteration on a handle bound to the live object `o0` at `p0`: the slot
receives `p0` and the object is retained once. -/
theorem rewriteLoop_step_bound (base : Ptr) (k i : Nat) (s : State) (bs : List Nat)
    (p0 : Ptr) (o0 : ManagedObject)
    (hmem : s.mem base = some bs) (hlen : 8 * i + 8 ≤ bs.length) (h0 : slot bs i ≠ 0)
    (hlk : Handle.lookup s (slot bs i) = p0) (hp0 : p0 ≠ 0) (hlive0 : s.heap p0 = some o0) :
    rewriteLoop base (k + 1) i s = rewriteLoop base k (i + 1)
      { s with
        mem := Function.update s.mem base (some (writeSlot bs i p0)),
        heap := Function.update s.heap p0 (some (o0.retained 1)) } := by
  rw [rewriteLoop_succ, hmem]
  simp only [readSlot_eq bs i hlen, ne_eq, h0, not_false_eq_true, if_true, hlk]
  simp only [refInc, State.deref, hp0, if_false, hlive0]
  rfl

/-- Effect of the rewrite loop on a region of handles that are null or bound
to live objects: it terminates without fault, replaces every slot by the
pointer its handle resolves to, and retains every object once per slot. -/
theorem rewriteLoop_spec (base : Ptr) (k : Nat) : ∀ (i : Nat) (s : State) (bs : List Nat),
    s.mem base = some bs → 8 * (i + k) ≤ bs.length →
    (∀ j, i ≤ j → j < i + k → slot bs j ≠ 0 →
      ∃ p o, s.objectByHandle (slot bs j) = some p ∧ p ≠ 0 ∧ p < 2 ^ 64 ∧ s.heap p = some o) →
    ∃ s' bs', rewriteLoop base k i s = some s' ∧ s'.mem base = some bs' ∧
      bs'.length = bs.length ∧
      s'.objectByHandle = s.objectByHandle ∧ s'.bufferRefs = s.bufferRefs ∧ s'.brk = s.brk ∧
      (∀ q, q ≠ base → s'.mem q = s.mem q) ∧
      (∀ j, j < i ∨ i + k ≤ j → slot bs' j = slot bs j) ∧
      (∀ j, i ≤ j → j < i + k →
        slot bs' j = if slot bs j = 0 then 0 else Handle.lookup s (slot bs j)) ∧
      (∀ p, s'.heap p = (s.heap p).map (ManagedObject.retained (slotsNaming s bs i k p))) := by
  induction k with
  | zero =>
    intro i s bs hmem _ _
    refine ⟨s, bs, rfl, hmem, rfl, rfl, rfl, rfl, fun _ _ => rfl, fun _ _ => rfl, ?_, ?_⟩
    · intro j h1 h2; omega
    · intro p
      rw [slotsNaming_zero]
      cases s.heap p <;> rfl
  | succ k ih =>
    intro i s bs hmem hlen hb
    by_cases h0 : slot bs i = 0
    · -- null handle: the slot is cleared
      let s1 : State := { s with mem := Function.update s.mem base (some (writeSlot bs i 0)) }
      have hstep : rewriteLoop base (k + 1) i s = rewriteLoop base k (i + 1) s1 :=
        rewriteLoop_step_null base k i s bs hmem (by omega) h0
      have hslot1 : ∀ j, j ≠ i → slot (writeSlot bs i 0) j = slot bs j :=
        fun j hj => slot_writeSlot_other bs i j 0 hj
      obtain ⟨s', bs', hrun, hmem', hlen', hreg', hrefs', hbrk', hfr', hout', hin', hheap'⟩ :=
        ih (i + 1) s1 (writeSlot bs i 0) (by simp [s1])
          (by rw [length_writeSlot]; omega)
          (by
            intro j h1 h2 hj
            rw [hslot1 j (by omega)] at hj ⊢
            exact hb j (by omega) (by omega) hj)
      refine ⟨s', bs', by rw [hstep, hrun], hmem', by rw [hlen', length_writeSlot], hreg',
        hrefs', hbrk', ?_, ?_, ?_, ?_⟩
      · intro q hq
        rw [hfr' q hq]
        simp [s1, Function.update_noteq hq]
      · intro j hj
        rw [hout' j (by omega), hslot1 j (by omega)]
      · intro j h1 h2
        by_cases hji : j = i
        · subst hji
          rw [hout' j (by omega), slot_writeSlot_same bs j 0 (by omega) (by norm_num), if_pos h0]
        · rw [hin' j (by omega) (by omega), hslot1 j hji]
          rfl
      · intro p
        rw [hheap' p, slotsNaming_succ s bs i k p,
          slotsNaming_congr s s1 bs (writeSlot bs i 0) (i + 1) k p rfl
            (fun j h1 _ => hslot1 j (by omega))]
        simp [h0, s1]
    · -- non-null handle: resolved, stored, retained
      obtain ⟨p0, o0, hreg0, hp0, hp64, hlive0⟩ := hb i (Nat.le_refl _) (by omega) h0
      have hlk : Handle.lookup s (slot bs i) = p0 := lookup_of_bound s _ p0 h0 hreg0
      let s2 : State :=
        { s with mem := Function.update s.mem base (some (writeSlot bs i p0)),
                 heap := Function.update s.heap p0 (some (o0.retained 1)) }
      have hstep : rewriteLoop base (k + 1) i s = rewriteLoop base k (i + 1) s2 :=
        rewriteLoop_step_bound base k i s bs p0 o0 hmem (by omega) h0 hlk hp0 hlive0
      have hslot1 : ∀ j, j ≠ i → slot (writeSlot bs i p0) j = slot bs j :=
        fun j hj => slot_writeSlot_other bs i j p0 hj
      obtain ⟨s', bs', hrun, hmem', hlen', hreg', hrefs', hbrk', hfr', hout', hin', hheap'⟩ :=
        ih (i + 1) s2 (writeSlot bs i p0) (by simp [s2])
          (by rw [length_writeSlot]; omega)
          (by
            intro j h1 h2 hj
            rw [hslot1 j (by omega)] at hj ⊢
            obtain ⟨p, o, h3, h4, h5, h6⟩ := hb j (by omega) (by omega) hj
            by_cases hpp : p = p0
            · exact ⟨p, o0.retained 1, h3, h4, h5, by rw [hpp]; simp [s2]⟩
            · exact ⟨p, o, h3, h4, h5, by simp [s2, Function.update_noteq hpp, h6]⟩)
      refine ⟨s', bs', by rw [hstep, hrun], hmem', by rw [hlen', length_writeSlot], hreg',
        hrefs', hbrk', ?_, ?_, ?_, ?_⟩
      · intro q hq
        rw [hfr' q hq]
        simp [s2, Function.update_noteq hq]
      · intro j hj
        rw [hout' j (by omega), hslot1 j (by omega)]
      · intro j h1 h2
        by_cases hji : j = i
        · subst hji
          rw [hout' j (by omega), slot_writeSlot_same bs j p0 (by omega) hp64, if_neg h0, hlk]
        · rw [hin' j (by omega) (by omega), hslot1 j hji]
          rfl
      · intro p
        rw [hheap' p, slotsNaming_succ s bs i k p,
          slotsNaming_congr s s2 bs (writeSlot bs i p0) (i + 1) k p rfl
            (fun j h1 _ => hslot1 j (by omega))]
        by_cases hpp : p = p0
        · subst hpp
          simp [s2, h0, hlk, hlive0, retained_retained]
        · have hne : ¬ (p0 = p) := fun h => hpp h.symm
          simp [s2, Function.update_noteq hpp, h0, hlk, hne]

/-- C1: `new_data` with element type `OBJECT`, a count `n` and a bulk buffer
whose first `n` slots hold handles that are null or bound to a live object
(the retain succeeds, the new handle is not bound yet, `new` returns a free
address) returns normally; afterwards the handle is bound to a `Data` of `n`
elements over the buffer, slot `i` holds `lookup(h_i)` for a non-null `h_i`
and the null pointer for a null `h_i`, every object has been retained once
for each slot that names it, so an object that no slot names keeps its count,
and nothing else of any object changed. -/
theorem new_data_object_rewrite (E : Engine) (s : State) (handle : Handle) (n : Nat)
    (flags : Nat) (bufferPtr0 : Ptr) (bs : List Nat)
    (hbuf : s.mem bufferPtr0 = some bs) (hlen : 8 * n ≤ bs.length)
    (hbound : ∀ i, i < n → slot bs i ≠ 0 →
      ∃ p o, s.objectByHandle (slot bs i) = some p ∧ p ≠ 0 ∧ p < 2 ^ 64 ∧ s.heap p = some o)
    (hfresh : s.objectByHandle handle = none)
    (hbrk : s.heap s.brk = none) :
    ∃ s' bs',
      ospray_coi_new_data E s handle n OSP_OBJECT flags bufferPtr0 COI_SUCCESS = .ok s' ∧
      s'.objectByHandle handle = some s.brk ∧
      s'.heap s.brk
        = some (Data.new n OSP_OBJECT bufferPtr0 (flags ||| E.OSP_DATA_SHARED_BUFFER)) ∧
      s'.mem bufferPtr0 = some bs' ∧ bs'.length = bs.length ∧
      (∀ i, i < n →
        slot bs' i = (if slot bs i = 0 then 0 else Handle.lookup s (slot bs i)) ∧
        Handle.lookup s' (slot bs i) = Handle.lookup s (slot bs i)) ∧
      (∀ p o, s.heap p = some o →
        s'.heap p = some (o.retained (slotsNaming s bs 0 n p))) ∧
      (∀ p o i, s.heap p = some o → i < n →
        slot bs i ≠ 0 → Handle.lookup s (slot bs i) = p →
        (∀ j, j < n → j ≠ i → slot bs j = 0 ∨ Handle.lookup s (slot bs j) ≠ p) →
        s'.heap p = some { o with refCount := o.refCount + 1 }) ∧
      (∀ p o, s.heap p = some o →
        (∀ j, j < n → slot bs j = 0 ∨ Handle.lookup s (slot bs j) ≠ p) →
        s'.heap p = some o) := by
  let s0 : State :=
    { s with bufferRefs := Function.update s.bufferRefs bufferPtr0 (s.bufferRefs bufferPtr0 + 1) }
  obtain ⟨s1, bs', hrun, hmem', hlen', hreg', -, hbrk', -, -, hin', hheap'⟩ :=
    rewriteLoop_spec bufferPtr0 n 0 s0 bs hbuf (by omega)
      (fun j _ h2 hj => hbound j (by omega) hj)
  have hrun' : rewriteLoop bufferPtr0 (n : Int).toNat 0 s0 = some s1 := by
    rw [Int.toNat_natCast]; exact hrun
  have hreg1 : s1.objectByHandle = s.objectByHandle := hreg'
  have hbrk1 : s1.brk = s.brk := hbrk'
  have hall : ∀ p o, s.heap p = some o →
      (Function.update s1.heap s1.brk
        (some (Data.new n OSP_OBJECT bufferPtr0 (flags ||| E.OSP_DATA_SHARED_BUFFER)))) p
        = some (o.retained (slotsNaming s bs 0 n p)) := by
    intro p o hp
    have hp' : p ≠ s1.brk := by
      intro h; rw [h, hbrk1, hbrk] at hp; cases hp
    rw [Function.update_noteq hp', hheap' p]
    show Option.map _ (s.heap p) = _
    rw [hp]
    rfl
  refine ⟨{ s1 with
            heap := Function.update s1.heap s1.brk
              (some (Data.new n OSP_OBJECT bufferPtr0 (flags ||| E.OSP_DATA_SHARED_BUFFER))),
            brk := s1.brk + 1,
            objectByHandle := Function.update s1.objectByHandle handle (some s1.brk) },
    bs', ?_, ?_, ?_, hmem', hlen', ?_, ?_, ?_, ?_⟩
  · simp only [ospray_coi_new_data, hrun', State.alloc, Handle.assign, hreg1, hfresh]
    simp
  · rw [← hbrk1]; simp
  · rw [← hbrk1]; simp
  · intro i hi
    refine ⟨by simpa using hin' i (Nat.zero_le _) (by omega), ?_⟩
    by_cases h0 : slot bs i = 0
    · simp [Handle.lookup, h0]
    · obtain ⟨p, o, h3, -, -, -⟩ := hbound i hi h0
      have hne : slot bs i ≠ handle := by
        intro h; rw [h, hfresh] at h3; cases h3
      simp [Handle.lookup, h0, hreg1, Function.update_noteq hne]
  · intro p o hp
    exact hall p o hp
  · intro p o i hp hi hne hlk hothers
    have h1 := hall p o hp
    rw [slotsNaming_eq_one s bs p i n 0 (Nat.zero_le _) (by omega) hne hlk
      (fun j _ h2 h3 => hothers j (by omega) h3)] at h1
    exact h1
  · intro p o hp hnone
    have h1 := hall p o hp
    rw [slotsNaming_eq_zero s bs p n 0 (fun j _ h2 => hnone j (by omega))] at h1
    exact h1

/-- C1 at scenario S2: `new_data(h_d, 2, OBJECT, 0)` over the buffer that
holds the handles of `g1` and `g2`. -/
theorem new_data_object_rewrite_witness :
    ∃ s' bs',
      ospray_coi_new_data exampleEngine exampleS2 11 (2 : Nat) OSP_OBJECT 0 50 COI_SUCCESS
        = .ok s' ∧
      s'.objectByHandle 11 = some exampleS2.brk ∧
      s'.heap exampleS2.brk
        = some (Data.new (2 : Nat) OSP_OBJECT 50 (0 ||| exampleEngine.OSP_DATA_SHARED_BUFFER)) ∧
      s'.mem 50 = some bs' ∧
      bs'.length = [7, 0, 0, 0, 0, 0, 0, 0, 9, 0, 0, 0, 0, 0, 0, 0].length ∧
      (∀ i, i < 2 →
        slot bs' i = (if slot [7, 0, 0, 0, 0, 0, 0, 0, 9, 0, 0, 0, 0, 0, 0, 0] i = 0 then 0
          else Handle.lookup exampleS2 (slot [7, 0, 0, 0, 0, 0, 0, 0, 9, 0, 0, 0, 0, 0, 0, 0] i)) ∧
        Handle.lookup s' (slot [7, 0, 0, 0, 0, 0, 0, 0, 9, 0, 0, 0, 0, 0, 0, 0] i)
          = Handle.lookup exampleS2 (slot [7, 0, 0, 0, 0, 0, 0, 0, 9, 0, 0, 0, 0, 0, 0, 0] i)) ∧
      (∀ p o, exampleS2.heap p = some o →
        s'.heap p = some (o.retained
          (slotsNaming exampleS2 [7, 0, 0, 0, 0, 0, 0, 0, 9, 0, 0, 0, 0, 0, 0, 0] 0 2 p))) ∧
      (∀ p o i, exampleS2.heap p = some o → i < 2 →
        slot [7, 0, 0, 0, 0, 0, 0, 0, 9, 0, 0, 0, 0, 0, 0, 0] i ≠ 0 →
        Handle.lookup exampleS2 (slot [7, 0, 0, 0, 0, 0, 0, 0, 9, 0, 0, 0, 0, 0, 0, 0] i) = p →
        (∀ j, j < 2 → j ≠ i → slot [7, 0, 0, 0, 0, 0, 0, 0, 9, 0, 0, 0, 0, 0, 0, 0] j = 0 ∨
          Handle.lookup exampleS2 (slot [7, 0, 0, 0, 0, 0, 0, 0, 9, 0, 0, 0, 0, 0, 0, 0] j) ≠ p) →
        s'.heap p = some { o with refCount := o.refCount + 1 }) ∧
      (∀ p o, exampleS2.heap p = some o →
        (∀ j, j < 2 → slot [7, 0, 0, 0, 0, 0, 0, 0, 9, 0, 0, 0, 0, 0, 0, 0] j = 0 ∨
          Handle.lookup exampleS2 (slot [7, 0, 0, 0, 0, 0, 0, 0, 9, 0, 0, 0, 0, 0, 0, 0] j) ≠ p) →
        s'.heap p = some o) :=
  new_data_object_rewrite exampleEngine exampleS2 11 2 0 50
    [7, 0, 0, 0, 0, 0, 0, 0, 9, 0, 0, 0, 0, 0, 0, 0] rfl (by decide)
    (by
      intro i hi _
      interval_cases i
      · exact ⟨100, exampleGeometry, by decide, by decide, by norm_num, by decide⟩
      · exact ⟨101, exampleGeometry, by decide, by decide, by norm_num, by decide⟩)
    (by decide) (by decide)

/-- C2, as stated, fails. In scenario S2 `new_data` rewrites the two slots to
the addresses 100 and 101; a further `upload_data_done` reads the address 100
as a handle, which is not bound, and dereferences the null result. In a state
where the handle 100 names the object at the address 100, `new_data` raises
the count of that object from 1 to 2 and the further `upload_data_done`
raises it again, to 3, with the slot unchanged. -/
theorem upload_data_done_rerun_counterexample :
    (∃ s1,
      ospray_coi_new_data exampleEngine exampleS2 11 2 OSP_OBJECT 0 50 COI_SUCCESS = .ok s1 ∧
      s1.mem 50 = some [100, 0, 0, 0, 0, 0, 0, 0, 101, 0, 0, 0, 0, 0, 0, 0] ∧
      ospray_coi_upload_data_done s1 11 2 OSP_OBJECT 0 = .undefined) ∧
    (∃ s1 s2,
      ospray_coi_new_data exampleEngine exampleAlias 11 1 OSP_OBJECT 0 50 COI_SUCCESS = .ok s1 ∧
      ospray_coi_upload_data_done s1 11 1 OSP_OBJECT 0 = .ok s2 ∧
      s1.mem 50 = some [100, 0, 0, 0, 0, 0, 0, 0] ∧
      s2.mem 50 = some [100, 0, 0, 0, 0, 0, 0, 0] ∧
      s1.heap 100 = some { exampleGeometry with refCount := 2 } ∧
      s2.heap 100 = some { exampleGeometry with refCount := 3 } ∧
      s2.heap 100 ≠ s1.heap 100) :=
  ⟨⟨_, rfl, rfl, rfl⟩, ⟨_, _, rfl, rfl, rfl, rfl, rfl, rfl, by decide⟩⟩

/-- C2, amended: `upload_data_done` on an `OBJECT` array has no guard against
a repeated run. Whenever the handle is bound to a live `Data` whose region
holds, in each of its first `n` slots, null or a value that read as a handle
is bound to a live object, the verb returns normally, overwrites each slot by
`lookup` of its content and retains every object once for each slot that
resolves to it; the registry is unchanged. On a freshly uploaded region of
handles this is one increment per slot; on a region that was rewritten before
the stored references are the values that are read as handles. -/
theorem upload_data_done_object_rewrite (s : State) (handle : Handle) (n : Nat) (flags : Nat)
    (o : ManagedObject) (d : Data) (bs : List Nat)
    (hdata : s.deref (Handle.lookup s handle) = some o) (hpay : o.payload = .data d)
    (hbuf : s.mem d.data = some bs) (hlen : 8 * n ≤ bs.length)
    (hbound : ∀ i, i < n → slot bs i ≠ 0 →
      ∃ p o, s.objectByHandle (slot bs i) = some p ∧ p ≠ 0 ∧ p < 2 ^ 64 ∧ s.heap p = some o) :
    ∃ s' bs',
      ospray_coi_upload_data_done s handle n OSP_OBJECT flags = .ok s' ∧
      s'.objectByHandle = s.objectByHandle ∧
      s'.mem d.data = some bs' ∧ bs'.length = bs.length ∧
      (∀ i, i < n →
        slot bs' i = if slot bs i = 0 then 0 else Handle.lookup s (slot bs i)) ∧
      (∀ p, s'.heap p = (s.heap p).map (ManagedObject.retained (slotsNaming s bs 0 n p))) := by
  obtain ⟨s1, bs', hrun, hmem', hlen', hreg', -, -, -, -, hin', hheap'⟩ :=
    rewriteLoop_spec d.data n 0 s bs hbuf (by omega)
      (fun j _ h2 hj => hbound j (by omega) hj)
  refine ⟨s1, bs', ?_, hreg', hmem', hlen', ?_, hheap'⟩
  · simp only [ospray_coi_upload_data_done, sizeOf, hdata, hpay, Int.toNat_natCast, hrun]
    simp
  · intro i hi
    simpa using hin' i (Nat.zero_le _) (by omega)

/-- C2, amended, on the chunked path: `upload_data_done(h_d, 2, OBJECT, 0)`
over the uploaded handles of `g1` and `g2`. -/
theorem upload_data_done_object_rewrite_witness :
    ∃ s' bs',
      ospray_coi_upload_data_done exampleChunked 11 (2 : Nat) OSP_OBJECT 0 = .ok s' ∧
      s'.objectByHandle = exampleChunked.objectByHandle ∧
      s'.mem 60 = some bs' ∧
      bs'.length = [7, 0, 0, 0, 0, 0, 0, 0, 9, 0, 0, 0, 0, 0, 0, 0].length ∧
      (∀ i, i < 2 →
        slot bs' i = if slot [7, 0, 0, 0, 0, 0, 0, 0, 9, 0, 0, 0, 0, 0, 0, 0] i = 0 then 0
          else Handle.lookup exampleChunked
            (slot [7, 0, 0, 0, 0, 0, 0, 0, 9, 0, 0, 0, 0, 0, 0, 0] i)) ∧
      (∀ p, s'.heap p = (exampleChunked.heap p).map (ManagedObject.retained
        (slotsNaming exampleChunked [7, 0, 0, 0, 0, 0, 0, 0, 9, 0, 0, 0, 0, 0, 0, 0] 0 2 p))) :=
  upload_data_done_object_rewrite exampleChunked 11 2 0
    (Data.new 2 .OSP_OBJECT 60 1) ⟨2, .OSP_OBJECT, 60, 1⟩
    [7, 0, 0, 0, 0, 0, 0, 0, 9, 0, 0, 0, 0, 0, 0, 0] rfl rfl rfl (by decide)
    (by
      intro i hi _
      interval_cases i
      · exact ⟨100, exampleGeometry, by decide, by decide, by norm_num, by decide⟩
      · exact ⟨101, exampleGeometry, by decide, by decide, by norm_num, by decide⟩)

/-- The index that `find_if` returns never exceeds the length. -/
theorem find_if_le (pred : Ptr → Bool) (l : List Ptr) : find_if pred l ≤ l.length := by
  induction l with
  | nil => simp [find_if]
  | cons g rest ih =>
    by_cases h : pred g = true
    · simp [find_if, h]
    · simp [find_if, h, ih]

/-- When no element satisfies the predicate, `find_if` returns `end()`. -/
theorem find_if_eq_length (pred : Ptr → Bool) (l : List Ptr)
    (h : ∀ x, x ∈ l → pred x = false) : find_if pred l = l.length := by
  induction l with
  | nil => simp [find_if]
  | cons g rest ih =>
    have hg : pred g = false := h g (List.mem_cons_self _ _)
    simp [find_if, hg, ih (fun x hx => h x (List.mem_cons_of_mem _ hx))]

/-- When some element satisfies the predicate, `find_if` returns the smallest
index of such an element. -/
theorem find_if_first (pred : Ptr → Bool) (l : List Ptr) (h : ∃ x, x ∈ l ∧ pred x = true) :
    find_if pred l < l.length ∧
    (∃ x, l[find_if pred l]? = some x ∧ pred x = true) ∧
    (∀ j, j < find_if pred l → ∀ y, l[j]? = some y → pred y = false) := by
  induction l with
  | nil => obtain ⟨x, hx, _⟩ := h; cases hx
  | cons g rest ih =>
    by_cases hg : pred g = true
    · simp [find_if, hg]
    · have hg' : pred g = false := by simpa using hg
      have h' : ∃ x, x ∈ rest ∧ pred x = true := by
        obtain ⟨x, hx, hp⟩ := h
        rcases List.mem_cons.mp hx with rfl | hx'
        · exact absurd hp hg
        · exact ⟨x, hx', hp⟩
      obtain ⟨h1, h2, h3⟩ := ih h'
      refine ⟨by simp [find_if, hg']; exact h1, by simpa [find_if, hg'] using h2, ?_⟩
      intro j hj y hy
      simp only [find_if, hg', Bool.false_eq_true, if_false] at hj
      cases j with
      | zero => simp at hy; rw [← hy]; exact hg'
      | succ j => exact h3 j (by omega) y (by simpa using hy)

/-- Deleting a position that holds `a` removes one occurrence of `a`. -/
theorem count_eraseIdx_of_getElem? (a : Ptr) (l : List Ptr) :
    ∀ i, l[i]? = some a → (l.eraseIdx i).count a + 1 = l.count a := by
  induction l with
  | nil => intro i h; simp at h
  | cons g rest ih =>
    intro i h
    cases i with
    | zero =>
      simp at h
      subst h
      simp
    | succ i =>
      have h' : rest[i]? = some a := by simpa using h
      simp only [List.eraseIdx_cons_succ, List.count_cons]
      have := ih i h'
      omega

/-- C3: when the model's geometry sequence contains the object bound to `g`,
`remove_geometry(model, g)` returns normally and deletes exactly the entry at
the smallest index `i` that holds that object: the new sequence is the old one
without position `i`, so it is one shorter, the entries before `i` keep their
positions, every entry behind `i` (later occurrences of `g` included) moves
down by one in the same order, and the object occurs once less. -/
theorem remove_geometry_first_occurrence (s : State) (_model _geometry : Handle)
    (o : ManagedObject) (geom : List Ptr)
    (hmodel : s.deref (Handle.lookup s _model) = some o) (hpay : o.payload = .model geom)
    (hin : Handle.lookup s _geometry ∈ geom) :
    ∃ i, i < geom.length ∧ geom[i]? = some (Handle.lookup s _geometry) ∧
      (∀ j, j < i → geom[j]? ≠ some (Handle.lookup s _geometry)) ∧
      ospray_coi_remove_geometry s _model _geometry =
        .ok { s with
              heap := Function.update s.heap (Handle.lookup s _model)
                (some { o with payload := .model (geom.eraseIdx i) }) } ∧
      (geom.eraseIdx i).length + 1 = geom.length ∧
      (∀ j, j < i → (geom.eraseIdx i)[j]? = geom[j]?) ∧
      (∀ j, i ≤ j → (geom.eraseIdx i)[j]? = geom[j + 1]?) ∧
      (geom.eraseIdx i).count (Handle.lookup s _geometry) + 1
        = geom.count (Handle.lookup s _geometry) := by
  obtain ⟨h1, ⟨x, hx, hpx⟩, h3⟩ :=
    find_if_first (GeometryLocator (Handle.lookup s _geometry)) geom
      ⟨_, hin, by simp [GeometryLocator]⟩
  have hxg : x = Handle.lookup s _geometry := by
    simpa [GeometryLocator, eq_comm] using hpx
  subst hxg
  refine ⟨find_if (GeometryLocator (Handle.lookup s _geometry)) geom, h1, hx, ?_, ?_, ?_, ?_, ?_, ?_⟩
  · intro j hj hcontra
    have := h3 j hj _ hcontra
    simp [GeometryLocator] at this
  · simp only [ospray_coi_remove_geometry, hmodel, hpay]
    rw [if_pos (Nat.ne_of_lt h1)]
  · rw [List.length_eraseIdx, if_pos h1]; omega
  · intro j hj
    rw [List.getElem?_eraseIdx, if_pos hj]
  · intro j hj
    rw [List.getElem?_eraseIdx, if_neg (by omega)]
  · exact count_eraseIdx_of_getElem? _ geom _ hx

/-- C3 at scenario S6: `remove_geometry(model, g1)` on the sequence
`g1, g2, g1`. -/
theorem remove_geometry_first_occurrence_witness :
    ∃ i, i < [100, 101, 100].length ∧
      [100, 101, 100][i]? = some (Handle.lookup exampleS6 7) ∧
      (∀ j, j < i → [100, 101, 100][j]? ≠ some (Handle.lookup exampleS6 7)) ∧
      ospray_coi_remove_geometry exampleS6 20 7 =
        .ok { exampleS6 with
              heap := Function.update exampleS6.heap (Handle.lookup exampleS6 20)
                (some { ({ refCount := 1, params := [], payload := .model [100, 101, 100] } :
                          ManagedObject) with
                        payload := .model ([100, 101, 100].eraseIdx i) }) } ∧
      ([100, 101, 100].eraseIdx i).length + 1 = [100, 101, 100].length ∧
      (∀ j, j < i → ([100, 101, 100].eraseIdx i)[j]? = [100, 101, 100][j]?) ∧
      (∀ j, i ≤ j → ([100, 101, 100].eraseIdx i)[j]? = [100, 101, 100][j + 1]?) ∧
      ([100, 101, 100].eraseIdx i).count (Handle.lookup exampleS6 7) + 1
        = [100, 101, 100].count (Handle.lookup exampleS6 7) :=
  remove_geometry_first_occurrence exampleS6 20 7
    { refCount := 1, params := [], payload := .model [100, 101, 100] } [100, 101, 100]
    rfl rfl (by decide)

/-- Scenario S6 run from the empty model: after adding `g1, g2, g1` the
sequence is `[100, 101, 100]`, and `remove_geometry(model, g1)` leaves
`[101, 100]`. -/
theorem scenario_S6 :
    (((ospray_coi_add_geometry exampleS6Empty 20 7).andThen
        (fun s => ospray_coi_add_geometry s 20 9)).andThen
        (fun s => ospray_coi_add_geometry s 20 7)).geometryAt 400 = some [100, 101, 100] ∧
    ((((ospray_coi_add_geometry exampleS6Empty 20 7).andThen
        (fun s => ospray_coi_add_geometry s 20 9)).andThen
        (fun s => ospray_coi_add_geometry s 20 7)).andThen
        (fun s => ospray_coi_remove_geometry s 20 7)).geometryAt 400 = some [101, 100] :=
  ⟨rfl, rfl⟩

/-- C4: when the object bound to `g` does not occur in the model's geometry
sequence, `remove_geometry(model, g)` returns normally and leaves the whole
state, the geometry sequence included, as it was. -/
theorem remove_geometry_no_match (s : State) (_model _geometry : Handle)
    (o : ManagedObject) (geom : List Ptr)
    (hmodel : s.deref (Handle.lookup s _model) = some o) (hpay : o.payload = .model geom)
    (hnotin : Handle.lookup s _geometry ∉ geom) :
    ospray_coi_remove_geometry s _model _geometry = .ok s := by
  have hend : find_if (GeometryLocator (Handle.lookup s _geometry)) geom = geom.length := by
    apply find_if_eq_length
    intro x hx
    simp only [GeometryLocator, decide_eq_false_iff_not]
    intro h
    exact hnotin (h ▸ hx)
  simp only [ospray_coi_remove_geometry, hmodel, hpay, hend, ne_eq, not_true_eq_false, if_false]

/-- C4 at scenario S6: the geometry at address 102 is not in the model. -/
theorem remove_geometry_no_match_witness :
    ospray_coi_remove_geometry exampleS6 20 13 = .ok exampleS6 :=
  remove_geometry_no_match exampleS6 20 13
    { refCount := 1, params := [], payload := .model [100, 101, 100] } [100, 101, 100]
    rfl rfl (by decide)

end coi

/-- The entry just stored is the one found under its name. -/
theorem findParam_setParam_same (ps : List (String × Param)) (name : String) (v : Param) :
    findParam (setParam ps name v) name = some v := by
  induction ps with
  | nil => simp [setParam, findParam]
  | cons e rest ih =>
    obtain ⟨k, x⟩ := e
    by_cases h : k = name
    · simp [setParam, findParam, h]
    · simp [setParam, findParam, h, ih]

/-- Storing under `name` leaves the entry under every other name as it was. -/
theorem findParam_setParam_other (ps : List (String × Param)) (name other : String) (v : Param)
    (hne : other ≠ name) : findParam (setParam ps name v) other = findParam ps other := by
  induction ps with
  | nil => simp [setParam, findParam, hne.symm]
  | cons e rest ih =>
    obtain ⟨k, x⟩ := e
    by_cases h : k = name
    · have hk : ¬ k = other := fun hk => hne (hk ▸ h)
      simp [setParam, findParam, h, hne.symm, hk]
    · by_cases hk : k = other
      · subst hk
        simp [setParam, findParam, h]
      · simp [setParam, findParam, h, hk, ih]

/-- A pointer that can be dereferenced is not null. -/
theorem ne_zero_of_deref (s : State) (p : Ptr) (o : ManagedObject) (h : s.deref p = some o) :
    p ≠ 0 := by
  intro hp
  simp [State.deref, hp] at h

namespace coi

open OSPDataType COIRESULT

/-- C5: `set_value` on a target handle for which `lookup` yields no object
returns normally and leaves the whole state (the handle registry and every
property bag included) unchanged, whatever the name and whatever the stream
holds as type tag and value. -/
theorem set_value_unbound_target {σ : Type} (D : DataStream σ) (s : State) (target : Handle)
    (name : String) (args : σ) (hnone : Handle.lookup s target = 0) :
    ospray_coi_set_value D s target name args = .ok s := by
  simp [ospray_coi_set_value, hnone]

/-- C5 at the unbound handle 99 of scenario S4, with a tag that `set_value`
does not support. -/
theorem set_value_unbound_target_witness :
    ospray_coi_set_value exampleStream exampleS4 99 "pos" (OSP_UNKNOWN, [1, 2, 3])
      = .ok exampleS4 :=
  set_value_unbound_target exampleStream exampleS4 99 "pos" (OSP_UNKNOWN, [1, 2, 3])
    (by decide)

/-- C6, as stated, fails: `DOUBLE` is a scalar type of the type catalogue
(`sizeOf` gives it 8 bytes), and `set_value` with that tag on the bound
camera of scenario S4 stores nothing; it throws from the `default:` case of
its switch and the state is as before. -/
theorem set_value_double_counterexample :
    sizeOf OSP_DOUBLE = .ok 8 ∧
    exampleS4.deref (Handle.lookup exampleS4 30) = some exampleCamera ∧
    ospray_coi_set_value exampleStream exampleS4 30 "pos" (OSP_DOUBLE, [0, 1072693248])
      = .raised (.c_string "ospray_coi_set_value no timplemented for given data type")
          exampleS4 :=
  ⟨rfl, rfl, rfl⟩

/-- C6, amended: for a target bound to a live object and a type tag among
`INT`, `INT2`, `INT3`, `INT4`, `UINT`, `UINT2`, `UINT3`, `UINT4`, `FLOAT`,
`FLOAT2`, `FLOAT3`, `FLOAT4`, `STRING`, `OBJECT` (the cases of the switch),
`set_value` returns normally; the value `v` it stores is the one read from
the stream behind the tag with the read of that tag's type (for `OBJECT`: the
object that the handle read from the stream resolves to); afterwards the
target's property bag holds `v` under `name` and, under every other name,
what it held before; no other object and nothing else of the state changes. -/
theorem set_value_stores {σ : Type} (D : DataStream σ) (s : State) (target : Handle)
    (name : String) (args : σ) (o : ManagedObject)
    (hobj : s.deref (Handle.lookup s target) = some o)
    (htag : (D.get_OSPDataType args).1 ∈
      [OSP_INT, OSP_INT2, OSP_INT3, OSP_INT4, OSP_UINT, OSP_UINT2, OSP_UINT3, OSP_UINT4,
       OSP_FLOAT, OSP_FLOAT2, OSP_FLOAT3, OSP_FLOAT4, OSP_STRING, OSP_OBJECT]) :
    ∃ v : Param,
      (match (D.get_OSPDataType args).1 with
        | OSP_INT => v = .int (D.get_int32 (D.get_OSPDataType args).2).1
        | OSP_INT2 => v = .int2 (D.get_vec2i (D.get_OSPDataType args).2).1
        | OSP_INT3 => v = .int3 (D.get_vec3i (D.get_OSPDataType args).2).1
        | OSP_INT4 => v = .int4 (D.get_vec4i (D.get_OSPDataType args).2).1
        | OSP_UINT => v = .uint (D.get_uint32 (D.get_OSPDataType args).2).1
        | OSP_UINT2 => v = .uint2 (D.get_vec2ui (D.get_OSPDataType args).2).1
        | OSP_UINT3 => v = .uint3 (D.get_vec3ui (D.get_OSPDataType args).2).1
        | OSP_UINT4 => v = .uint4 (D.get_vec4ui (D.get_OSPDataType args).2).1
        | OSP_FLOAT => v = .float (D.get_float (D.get_OSPDataType args).2).1
        | OSP_FLOAT2 => v = .float2 (D.get_vec2f (D.get_OSPDataType args).2).1
        | OSP_FLOAT3 => v = .float3 (D.get_vec3f (D.get_OSPDataType args).2).1
        | OSP_FLOAT4 => v = .float4 (D.get_vec4f (D.get_OSPDataType args).2).1
        | OSP_STRING => v = .string (D.getString (D.get_OSPDataType args).2).1
        | OSP_OBJECT =>
          v = .object (Handle.lookup s (D.get_Handle (D.get_OSPDataType args).2).1)
        | _ => False) ∧
      ospray_coi_set_value D s target name args =
        .ok { s with
              heap := Function.update s.heap (Handle.lookup s target)
                (some { o with params := setParam o.params name v }) } ∧
      findParam (setParam o.params name v) name = some v ∧
      (∀ other, other ≠ name →
        findParam (setParam o.params name v) other = findParam o.params other) := by
  have hne : Handle.lookup s target ≠ 0 := ne_zero_of_deref s _ o hobj
  obtain ⟨v, hv⟩ : ∃ v, setValueCase D s (D.get_OSPDataType args).1 (D.get_OSPDataType args).2
      = some v := by
    simp only [List.mem_cons, List.mem_singleton, List.not_mem_nil, or_false] at htag
    rcases htag with h | h | h | h | h | h | h | h | h | h | h | h | h | h <;>
      rw [h] <;> exact ⟨_, rfl⟩
  refine ⟨v, ?_, ?_, findParam_setParam_same _ _ _,
    fun other h => findParam_setParam_other _ _ _ _ h⟩
  · simp only [List.mem_cons, List.mem_singleton, List.not_mem_nil, or_false] at htag
    rcases htag with h | h | h | h | h | h | h | h | h | h | h | h | h | h <;>
      simp only [h, setValueCase, Option.some.injEq] at hv ⊢ <;> exact hv.symm
  · simp only [ospray_coi_set_value, hne, if_false, hv, hobj, ManagedObject.set]

/-- C6, amended, at scenario S4: `set_value(h_c, "pos", FLOAT3, (1, 2, 3))`
stores the three floats under `pos` and keeps the entry under `dir`. -/
theorem set_value_stores_witness :
    ∃ v : Param,
      v = .float3 (1065353216, 1073741824, 1077936128) ∧
      ospray_coi_set_value exampleStream exampleS4 30 "pos"
          (OSP_FLOAT3, [1065353216, 1073741824, 1077936128]) =
        .ok { exampleS4 with
              heap := Function.update exampleS4.heap (Handle.lookup exampleS4 30)
                (some { exampleCamera with params := setParam exampleCamera.params "pos" v }) } ∧
      findParam (setParam exampleCamera.params "pos" v) "pos" = some v ∧
      findParam (setParam exampleCamera.params "pos" v) "dir"
        = findParam exampleCamera.params "dir" := by
  obtain ⟨v, hv, hrun, hsame, hother⟩ :=
    set_value_stores exampleStream exampleS4 30 "pos"
      (OSP_FLOAT3, [1065353216, 1073741824, 1077936128]) exampleCamera rfl (by decide)
  exact ⟨v, hv, hrun, hsame, hother "dir" (by decide)⟩

end coi

/-- Inside the range of a store, byte `k` is the matching byte of the value. -/
theorem getByte_storeLE_inside (n : Nat) : ∀ (bs : List Nat) (off v k : Nat),
    off + n ≤ bs.length → off ≤ k → k < off + n →
    getByte (storeLE bs off n v) k = v / 256 ^ (k - off) % 256 := by
  induction n with
  | zero => intro bs off v k _ h1 h2; omega
  | succ n ih =>
    intro bs off v k hlen h1 h2
    simp only [storeLE]
    by_cases hk : k = off
    · subst hk
      rw [getByte_storeLE_outside n _ (k + 1) _ k (by omega), getByte_set,
        if_pos ⟨rfl, by omega⟩]
      simp
    · rw [ih _ (off + 1) (v / 256) k (by simp; omega) (by omega) (by omega)]
      have hsub : k - off = (k - (off + 1)) + 1 := by omega
      rw [hsub, pow_succ, Nat.mul_comm, Nat.div_div_eq_div_mul]

namespace coi

open OSPDataType COIRESULT

/-- What `new_material` does when the factories recognise the type: the new
material is placed at `brk`, the return area receives `1`, the handle is
bound. -/
theorem new_material_recognized (E : Engine) (s : State) (handle _renderer : Handle)
    (type : String) (retVal : Ptr) (rs : List Nat) (m : ManagedObject)
    (hlive : Handle.lookup s _renderer ≠ 0 → (s.deref (Handle.lookup s _renderer)).isSome)
    (hret : s.mem retVal = some rs) (hlen : 4 ≤ rs.length)
    (hfresh : s.objectByHandle handle = none)
    (hmat : (match rendererMaterial E s _renderer type with
              | some m => some m
              | none => E.Material_createMaterial type) = some m) :
    ospray_coi_new_material E s handle _renderer type retVal =
      .ok { s with
            heap := Function.update s.heap s.brk (some m),
            brk := s.brk + 1,
            mem := Function.update s.mem retVal (some (storeLE rs 0 4 1)),
            objectByHandle := Function.update s.objectByHandle handle (some s.brk) } := by
  unfold rendererMaterial at hmat
  by_cases h0 : Handle.lookup s _renderer = 0
  · have hd : s.deref (Handle.lookup s _renderer) = none := by simp [State.deref, h0]
    rw [hd] at hmat
    simp only [Option.bind] at hmat
    simp [ospray_coi_new_material, h0, hmat, State.alloc, storeInt, hret, hlen,
      Handle.assign, hfresh]
  · obtain ⟨r, hr⟩ := Option.isSome_iff_exists.mp (hlive h0)
    rw [hr] at hmat
    simp only [Option.bind] at hmat
    cases hc : E.Renderer_createMaterial r type with
    | some mr =>
      rw [hc] at hmat
      simp only [Option.some.injEq] at hmat
      subst hmat
      simp [ospray_coi_new_material, h0, hr, hc, State.alloc, storeInt, hret, hlen,
        Handle.assign, hfresh]
    | none =>
      rw [hc] at hmat
      simp only at hmat
      simp [ospray_coi_new_material, h0, hr, hc, hmat, State.alloc, storeInt, hret, hlen,
        Handle.assign, hfresh]

/-- What `new_material` does when no factory recognises the type: only the
return area changes, it receives `0`. -/
theorem new_material_unrecognized (E : Engine) (s : State) (handle _renderer : Handle)
    (type : String) (retVal : Ptr) (rs : List Nat)
    (hlive : Handle.lookup s _renderer ≠ 0 → (s.deref (Handle.lookup s _renderer)).isSome)
    (hret : s.mem retVal = some rs) (hlen : 4 ≤ rs.length)
    (hmat : (match rendererMaterial E s _renderer type with
              | some m => some m
              | none => E.Material_createMaterial type) = none) :
    ospray_coi_new_material E s handle _renderer type retVal =
      .ok { s with mem := Function.update s.mem retVal (some (storeLE rs 0 4 0)) } := by
  unfold rendererMaterial at hmat
  by_cases h0 : Handle.lookup s _renderer = 0
  · have hd : s.deref (Handle.lookup s _renderer) = none := by simp [State.deref, h0]
    rw [hd] at hmat
    simp only [Option.bind] at hmat
    simp [ospray_coi_new_material, h0, hmat, storeInt, hret, hlen]
  · obtain ⟨r, hr⟩ := Option.isSome_iff_exists.mp (hlive h0)
    rw [hr] at hmat
    simp only [Option.bind] at hmat
    cases hc : E.Renderer_createMaterial r type with
    | some mr =>
      rw [hc] at hmat
      simp at hmat
    | none =>
      rw [hc] at hmat
      simp only at hmat
      simp [ospray_coi_new_material, h0, hr, hc, hmat, storeInt, hret, hlen]

/-- The `int` stored by `*(int*)retVal = v` reads back as `v`, for `v` 0 or 1. -/
theorem returnInt_storeLE (rs : List Nat) (v : Nat) (hlen : 4 ≤ rs.length) (hv : v < 2) :
    returnInt (storeLE rs 0 4 v) = v ∧ getByte (storeLE rs 0 4 v) 0 = v := by
  constructor
  · unfold returnInt
    rw [loadLE_storeLE_same 4 rs 0 v (by omega)]
    exact Nat.mod_eq_of_lt (by omega)
  · rw [getByte_storeLE_inside 4 rs 0 v 0 (by omega) (by omega) (by omega)]
    simp
    omega

/-- C7: for a `new_material` call whose renderer handle resolves to no
object or to a live one, whose handle `h` is not bound yet and whose return
area is mapped with room for the `int` the verb stores, the verb returns
normally and the return slot holds 1 (true) or 0 (false); it holds true
exactly when the renderer named by the handle recognises the type or the
global catalogue does, and exactly when `h` is bound afterwards; when it
holds true, `h` is bound to the new material, which is the renderer's one
whenever the renderer recognises the type and the global catalogue's one
otherwise; when it holds false, registry and objects are unchanged, so `h`
stays unbound. -/
theorem new_material_return_and_binding (E : Engine) (s : State) (handle _renderer : Handle)
    (type : String) (retVal : Ptr) (rs : List Nat)
    (hlive : Handle.lookup s _renderer ≠ 0 → (s.deref (Handle.lookup s _renderer)).isSome)
    (hret : s.mem retVal = some rs) (hlen : 4 ≤ rs.length)
    (hfresh : s.objectByHandle handle = none) :
    ∃ s' rs',
      ospray_coi_new_material E s handle _renderer type retVal = .ok s' ∧
      s'.mem retVal = some rs' ∧
      (returnInt rs' = 1 ∨ returnInt rs' = 0) ∧ getByte rs' 0 = returnInt rs' ∧
      (returnInt rs' = 1 ↔
        (rendererMaterial E s _renderer type).isSome ∨ (E.Material_createMaterial type).isSome) ∧
      (returnInt rs' = 1 ↔ (s'.objectByHandle handle).isSome) ∧
      (returnInt rs' = 1 →
        ∃ m, s'.objectByHandle handle = some s.brk ∧ s'.heap s.brk = some m ∧
          (∀ mr, rendererMaterial E s _renderer type = some mr → m = mr) ∧
          (rendererMaterial E s _renderer type = none →
            E.Material_createMaterial type = some m)) ∧
      (returnInt rs' = 0 → s'.objectByHandle = s.objectByHandle ∧ s'.heap = s.heap) := by
  cases hmat : (match rendererMaterial E s _renderer type with
      | some m => some m
      | none => E.Material_createMaterial type) with
  | some m =>
    obtain ⟨hr1, hr2⟩ := returnInt_storeLE rs 1 hlen (by omega)
    have hrec : (rendererMaterial E s _renderer type).isSome
        ∨ (E.Material_createMaterial type).isSome := by
      cases hrm : rendererMaterial E s _renderer type with
      | some mr => simp
      | none => rw [hrm] at hmat; simp only at hmat; simp [hmat]
    refine ⟨_, storeLE rs 0 4 1,
      new_material_recognized E s handle _renderer type retVal rs m hlive hret hlen hfresh hmat,
      by simp, Or.inl hr1, by rw [hr1, hr2], ?_, ?_, ?_, ?_⟩
    · exact ⟨fun _ => hrec, fun _ => hr1⟩
    · simp [hr1]
    · intro _
      refine ⟨m, by simp, by simp, ?_, ?_⟩
      · intro mr hmr
        rw [hmr] at hmat
        exact (Option.some.inj hmat).symm
      · intro hnone
        rw [hnone] at hmat
        exact hmat
    · intro h0
      rw [hr1] at h0
      omega
  | none =>
    obtain ⟨hr1, hr2⟩ := returnInt_storeLE rs 0 hlen (by omega)
    have hnr : rendererMaterial E s _renderer type = none := by
      cases hrm : rendererMaterial E s _renderer type with
      | some mr => rw [hrm] at hmat; simp at hmat
      | none => rfl
    have hng : E.Material_createMaterial type = none := by
      rw [hnr] at hmat; exact hmat
    refine ⟨_, storeLE rs 0 4 0,
      new_material_unrecognized E s handle _renderer type retVal rs hlive hret hlen hmat,
      by simp, Or.inr hr1, by rw [hr1, hr2], ?_, ?_, ?_, ?_⟩
    · simp [hr1, hnr, hng]
    · simp [hr1, hfresh]
    · intro h1
      rw [hr1] at h1
      omega
    · intro _
      exact ⟨rfl, rfl⟩

/-- C7 at scenario S5 with the `scivis` renderer, which recognises
`OBJMaterial`. -/
theorem new_material_return_and_binding_witness :
    ∃ s' rs',
      ospray_coi_new_material exampleEngine exampleS5 40 36 "OBJMaterial" 70 = .ok s' ∧
      s'.mem 70 = some rs' ∧
      (returnInt rs' = 1 ∨ returnInt rs' = 0) ∧ getByte rs' 0 = returnInt rs' ∧
      (returnInt rs' = 1 ↔
        (rendererMaterial exampleEngine exampleS5 36 "OBJMaterial").isSome
          ∨ (exampleEngine.Material_createMaterial "OBJMaterial").isSome) ∧
      (returnInt rs' = 1 ↔ (s'.objectByHandle 40).isSome) ∧
      (returnInt rs' = 1 →
        ∃ m, s'.objectByHandle 40 = some exampleS5.brk ∧ s'.heap exampleS5.brk = some m ∧
          (∀ mr, rendererMaterial exampleEngine exampleS5 36 "OBJMaterial" = some mr → m = mr) ∧
          (rendererMaterial exampleEngine exampleS5 36 "OBJMaterial" = none →
            exampleEngine.Material_createMaterial "OBJMaterial" = some m)) ∧
      (returnInt rs' = 0 →
        s'.objectByHandle = exampleS5.objectByHandle ∧ s'.heap = exampleS5.heap) :=
  new_material_return_and_binding exampleEngine exampleS5 40 36 "OBJMaterial" 70
    [170, 170, 170, 170, 170, 170, 170, 170] (fun _ => rfl) rfl (by decide) rfl

/-- C8, as stated, fails. In scenario S5 the return area holds eight bytes
`0xAA`; `new_material` with the unknown type `NoSuchMaterial` returns and the
area then starts with the four bytes `0, 0, 0, 0`: the bytes 1, 2 and 3,
which lie behind the first byte, have changed from `0xAA` to `0`. -/
theorem new_material_one_byte_counterexample :
    ∃ s',
      ospray_coi_new_material exampleEngine exampleS5 40 35 "NoSuchMaterial" 70 = .ok s' ∧
      exampleS5.mem 70 = some [170, 170, 170, 170, 170, 170, 170, 170] ∧
      s'.mem 70 = some [0, 0, 0, 0, 170, 170, 170, 170] ∧
      getByte [0, 0, 0, 0, 170, 170, 170, 170] 1
        ≠ getByte [170, 170, 170, 170, 170, 170, 170, 170] 1 :=
  ⟨_, rfl, rfl, rfl, by decide⟩

/-- The store `*(int*)p = v`, when it succeeds: the region at `p` is mapped
with room for an `int`, and only its bytes change. -/
theorem storeInt_some (t t2 : State) (p : Ptr) (v : Nat) (h : storeInt t p v = some t2) :
    ∃ rs, t.mem p = some rs ∧ 4 ≤ rs.length ∧
      t2.mem = Function.update t.mem p (some (storeLE rs 0 4 v)) := by
  unfold storeInt at h
  cases hm : t.mem p with
  | none => rw [hm] at h; cases h
  | some bs =>
    rw [hm] at h
    simp only at h
    by_cases hl : 4 ≤ bs.length
    · rw [if_pos hl] at h
      cases h
      exact ⟨bs, rfl, hl, rfl⟩
    · rw [if_neg hl] at h
      cases h

/-- Binding a handle leaves the byte memory alone. -/
theorem assign_ok_mem (t t2 : State) (h : Handle) (p : Ptr)
    (hrun : Handle.assign t h p = .ok t2) : t2.mem = t.mem := by
  unfold Handle.assign at hrun
  cases hb : t.objectByHandle h with
  | some q => rw [hb] at hrun; cases hrun
  | none => rw [hb] at hrun; cases hrun; rfl

/-- Whenever `new_material` returns, the return area was mapped with room for
an `int`, and the byte memory differs from the one before the call by the
store of the `int` 0 or 1 at the start of that area. -/
theorem new_material_ok_mem (E : Engine) (s s' : State) (handle _renderer : Handle)
    (type : String) (retVal : Ptr)
    (hrun : ospray_coi_new_material E s handle _renderer type retVal = .ok s') :
    ∃ rs v, v < 2 ∧ s.mem retVal = some rs ∧ 4 ≤ rs.length ∧
      s'.mem = Function.update s.mem retVal (some (storeLE rs 0 4 v)) := by
  have hfin : ∀ mat : Option ManagedObject,
      (match mat with
        | some m =>
          match storeInt (s.alloc m).2 retVal 1 with
          | none => Outcome.undefined
          | some s2 => Handle.assign s2 handle (s.alloc m).1
        | none =>
          match storeInt s retVal 0 with
          | none => Outcome.undefined
          | some s2 => Outcome.ok s2) = .ok s' →
      ∃ rs v, v < 2 ∧ s.mem retVal = some rs ∧ 4 ≤ rs.length ∧
        s'.mem = Function.update s.mem retVal (some (storeLE rs 0 4 v)) := by
    intro mat h
    cases mat with
    | some m =>
      simp only at h
      cases hst : storeInt (s.alloc m).2 retVal 1 with
      | none => rw [hst] at h; cases h
      | some s2 =>
        rw [hst] at h
        simp only at h
        obtain ⟨rs, h1, h2, h3⟩ := storeInt_some _ _ _ _ hst
        have h4 := assign_ok_mem _ _ _ _ h
        exact ⟨rs, 1, by omega, h1, h2, by rw [h4, h3]; rfl⟩
    | none =>
      simp only at h
      cases hst : storeInt s retVal 0 with
      | none => rw [hst] at h; cases h
      | some s2 =>
        rw [hst] at h
        simp only at h
        cases h
        obtain ⟨rs, h1, h2, h3⟩ := storeInt_some _ _ _ _ hst
        exact ⟨rs, 0, by omega, h1, h2, h3⟩
  unfold ospray_coi_new_material at hrun
  simp only at hrun
  split at hrun
  · cases hrun
  · exact hfin _ hrun

/-- C8, amended: the value `new_material` returns is an `int`. For every call
of `new_material` that returns, whatever the handle, the renderer and the
type, the return area was mapped with at least four bytes and the verb has
written exactly its first four bytes: byte 0 is 0 or 1, the bytes 1, 2 and 3
are 0 (the little-endian `int` 0 or 1), and every byte behind the fourth, the
length of the area and every other region are unchanged. The verb does return
when the renderer handle resolves to no object or to a live one, the return
area is mapped with at least four bytes, and the handle is not bound yet or no
factory recognises the type. -/
theorem new_material_writes_int (E : Engine) (s : State) (handle _renderer : Handle)
    (type : String) (retVal : Ptr) :
    (∀ s', ospray_coi_new_material E s handle _renderer type retVal = .ok s' →
      ∃ rs rs',
        s.mem retVal = some rs ∧ 4 ≤ rs.length ∧
        s'.mem retVal = some rs' ∧ rs'.length = rs.length ∧
        (getByte rs' 0 = 0 ∨ getByte rs' 0 = 1) ∧
        getByte rs' 1 = 0 ∧ getByte rs' 2 = 0 ∧ getByte rs' 3 = 0 ∧
        (∀ k, 4 ≤ k → getByte rs' k = getByte rs k) ∧
        (∀ q, q ≠ retVal → s'.mem q = s.mem q)) ∧
    (∀ rs,
      (Handle.lookup s _renderer ≠ 0 → (s.deref (Handle.lookup s _renderer)).isSome) →
      s.mem retVal = some rs → 4 ≤ rs.length →
      (s.objectByHandle handle = none ∨
        (rendererMaterial E s _renderer type = none ∧ E.Material_createMaterial type = none)) →
      ∃ s', ospray_coi_new_material E s handle _renderer type retVal = .ok s') := by
  constructor
  · intro s' hrun
    obtain ⟨rs, v, hv, hret, hlen, hmem⟩ :=
      new_material_ok_mem E s s' handle _renderer type retVal hrun
    refine ⟨rs, storeLE rs 0 4 v, hret, hlen, by rw [hmem]; simp, length_storeLE 4 rs 0 v,
      ?_, ?_, ?_, ?_, ?_, ?_⟩
    · have h0 := (returnInt_storeLE rs v hlen hv).2
      rw [h0]; omega
    · rw [getByte_storeLE_inside 4 rs 0 v 1 (by omega) (by omega) (by omega)]
      simp; omega
    · rw [getByte_storeLE_inside 4 rs 0 v 2 (by omega) (by omega) (by omega)]
      simp; omega
    · rw [getByte_storeLE_inside 4 rs 0 v 3 (by omega) (by omega) (by omega)]
      simp; omega
    · intro k hk
      exact getByte_storeLE_outside 4 rs 0 v k (by omega)
    · intro q hq
      rw [hmem, Function.update_noteq hq]
  · intro rs hlive hret hlen hcase
    cases hmat : (match rendererMaterial E s _renderer type with
        | some m => some m
        | none => E.Material_createMaterial type) with
    | some m =>
      rcases hcase with hfresh | ⟨hnr, hng⟩
      · exact ⟨_, new_material_recognized E s handle _renderer type retVal rs m hlive hret
          hlen hfresh hmat⟩
      · rw [hnr] at hmat
        simp only at hmat
        rw [hng] at hmat
        cases hmat
    | none =>
      exact ⟨_, new_material_unrecognized E s handle _renderer type retVal rs hlive hret hlen
        hmat⟩

/-- C8, amended, at scenario S5 with the unknown type `NoSuchMaterial` and the
handle 36, which is bound already: the call returns and has written the four
bytes `0, 0, 0, 0` over the first four of the eight bytes `0xAA`. -/
theorem new_material_writes_int_witness :
    ospray_coi_new_material exampleEngine exampleS5 36 35 "NoSuchMaterial" 70
      = .ok { exampleS5 with
              mem := Function.update exampleS5.mem 70
                (some [0, 0, 0, 0, 170, 170, 170, 170]) } ∧
    (exampleS5.objectByHandle 36).isSome = true ∧
    ∃ rs rs',
      exampleS5.mem 70 = some rs ∧ 4 ≤ rs.length ∧
      (Function.update exampleS5.mem 70 (some [0, 0, 0, 0, 170, 170, 170, 170])) 70
        = some rs' ∧
      rs'.length = rs.length ∧
      (getByte rs' 0 = 0 ∨ getByte rs' 0 = 1) ∧
      getByte rs' 1 = 0 ∧ getByte rs' 2 = 0 ∧ getByte rs' 3 = 0 ∧
      (∀ k, 4 ≤ k → getByte rs' k = getByte rs k) ∧
      (∀ q, q ≠ 70 →
        (Function.update exampleS5.mem 70 (some [0, 0, 0, 0, 170, 170, 170, 170])) q
          = exampleS5.mem q) :=
  ⟨rfl, rfl,
    (new_material_writes_int exampleEngine exampleS5 36 35 "NoSuchMaterial" 70).1 _ rfl⟩

/-- C9: called with the element type `STRING`, each of `new_data`,
`create_new_empty_data` and `upload_data_done` throws, for every handle,
count, flags, buffer and transport result; at the throw the handle registry
and the objects are what they were before the call, so no `Data` has been
created or bound. (`new_data` throws the retain error when the retain fails
and the string error otherwise.) -/
theorem data_verbs_reject_string (E : Engine) (s : State) (handle : Handle) (nitems : Int)
    (flags : Nat) (bufferPtr0 : Ptr) (res : COIRESULT) :
    (∃ e s', ospray_coi_new_data E s handle nitems OSP_STRING flags bufferPtr0 res
        = .raised e s' ∧
      s'.objectByHandle = s.objectByHandle ∧ s'.heap = s.heap) ∧
    ospray_coi_new_data E s handle nitems OSP_STRING flags bufferPtr0 COI_SUCCESS
      = .raised
          (.runtime_error "data arrays of strings not currently supported on coi device ...")
          { s with
            bufferRefs :=
              Function.update s.bufferRefs bufferPtr0 (s.bufferRefs bufferPtr0 + 1) } ∧
    ospray_coi_create_new_empty_data E s handle nitems OSP_STRING flags
      = .raised
          (.runtime_error "data arrays of strings not currently supported on coi device ...")
          s ∧
    ospray_coi_upload_data_done s handle nitems OSP_STRING flags
      = .raised
          (.runtime_error "data arrays of strings not currently supported on coi device ...")
          s := by
  refine ⟨?_, rfl, rfl, rfl⟩
  cases res with
  | COI_SUCCESS => exact ⟨_, _, rfl, rfl, rfl⟩
  | failure name => exact ⟨_, _, rfl, rfl, rfl⟩

/-- C10 on the code: in the state of scenario S2, with the transport
reporting the failure `COI_ERROR` for the retain of the bulk buffer,
`new_data` throws and leaves the state as it was, whereas `new_texture2d`
returns normally with the handle 12 bound to a new texture at address 200. -/
theorem new_texture2d_ignores_retain_failure :
    ospray_coi_new_data exampleEngine exampleS2 12 4 OSP_UCHAR4 0 50 (.failure "COI_ERROR")
      = .raised (.runtime_error "error in coibufferaddref: COI_ERROR") exampleS2 ∧
    ∃ s',
      ospray_coi_new_texture2d exampleEngine exampleS2 12 4 4 OSP_UCHAR4 0 50
        (.failure "COI_ERROR") = .ok s' ∧
      exampleS2.objectByHandle 12 = none ∧
      s'.objectByHandle 12 = some 200 ∧
      s'.heap 200 = some { refCount := 1, params := [], payload := .other "Texture2D" } :=
  ⟨rfl, _, rfl, rfl, rfl, rfl⟩

end coi

/-! ## The type catalogue: names and texture formats -/

/-- C15, as stated, fails: `OBJECT` and `LONG` are tags of the catalogue
(`sizeOf` and `stringForType` know them), their canonical names are `object`
and `long`, and `typeForString` maps both names to `OSP_UNKNOWN`. -/
theorem typeForString_stringForType_counterexample :
    sizeOf .OSP_OBJECT = .ok 8 ∧ stringForType .OSP_OBJECT = .ok "object" ∧
    typeForString (some "object") = .OSP_UNKNOWN ∧
    typeOfName .OSP_OBJECT ≠ .ok .OSP_OBJECT ∧
    sizeOf .OSP_LONG = .ok 8 ∧ stringForType .OSP_LONG = .ok "long" ∧
    typeForString (some "long") = .OSP_UNKNOWN ∧
    typeOfName .OSP_LONG ≠ .ok .OSP_LONG := by
  refine ⟨rfl, rfl, rfl, ?_, rfl, rfl, rfl, ?_⟩ <;>
    simp [typeOfName, stringForType, typeForString]

/-- The tags that `stringForType` names are those of `catalogueTypes`. -/
theorem stringForType_ok_iff (t : OSPDataType) :
    (∃ name, stringForType t = .ok name) ↔ t ∈ catalogueTypes := by
  cases t <;>
    first
    | exact ⟨fun _ => by decide, fun _ => ⟨_, rfl⟩⟩
    | simp [stringForType, catalogueTypes]

/-- The tags that `sizeOf` gives a size are those of `catalogueTypes`. -/
theorem sizeOf_ok_iff (t : OSPDataType) :
    (∃ w, sizeOf t = .ok w) ↔ t ∈ catalogueTypes := by
  cases t <;>
    first
    | exact ⟨fun _ => by decide, fun _ => ⟨_, rfl⟩⟩
    | simp [sizeOf, catalogueTypes]

/-- The round trip through the canonical name, tag by tag: it gives the tag
back for the tags of `namedTypes` and `OSP_UNKNOWN` for every other tag that
has a name. -/
theorem typeOfName_cases (t : OSPDataType) :
    (t ∈ namedTypes → typeOfName t = .ok t) ∧
    (t ∉ namedTypes → ∀ name, stringForType t = .ok name →
      typeOfName t = .ok .OSP_UNKNOWN) := by
  cases t <;> simp [namedTypes, typeOfName, stringForType] <;> decide

/-- C15, amended: the catalogue has 44 tags, which are exactly the tags that
`stringForType` gives a canonical name and exactly the tags that `sizeOf`
gives a size. For each of the 19 tags `CHAR`, `DOUBLE`, `FLOAT`, `FLOAT2`,
`FLOAT3`, `FLOAT4`, `INT`, `INT2`, `INT3`, `INT4`, `UCHAR`, `UCHAR2`, `UCHAR3`,
`UCHAR4`, `USHORT`, `UINT`, `UINT2`, `UINT3`, `UINT4` of the catalogue,
`typeForString(stringForType(t)) = t`; for each of the other 25 tags of the
catalogue, `typeForString(stringForType(t))` is `OSP_UNKNOWN`, which is not
`t`. -/
theorem typeForString_stringForType :
    catalogueTypes.length = 44 ∧ catalogueTypes.Nodup ∧
    (∀ t, (∃ name, stringForType t = .ok name) ↔ t ∈ catalogueTypes) ∧
    (∀ t, (∃ w, sizeOf t = .ok w) ↔ t ∈ catalogueTypes) ∧
    namedTypes.length = 19 ∧ namedTypes.Nodup ∧
    (∀ t, t ∈ namedTypes → t ∈ catalogueTypes) ∧
    (catalogueTypes.filter (fun t => decide (t ∉ namedTypes))).length = 25 ∧
    (∀ t, t ∈ namedTypes → typeOfName t = .ok t) ∧
    (∀ t, t ∈ catalogueTypes → t ∉ namedTypes →
      typeOfName t = .ok .OSP_UNKNOWN ∧ t ≠ .OSP_UNKNOWN) := by
  refine ⟨rfl, by decide, stringForType_ok_iff, sizeOf_ok_iff, rfl, by decide, by decide,
    by decide, fun t => (typeOfName_cases t).1, ?_⟩
  intro t ht hn
  obtain ⟨name, hname⟩ := (stringForType_ok_iff t).mpr ht
  refine ⟨(typeOfName_cases t).2 hn name hname, ?_⟩
  intro hu
  rw [hu] at ht
  exact absurd ht (by decide)

/-- C16: `sizeOf` on the eight texture formats returns 4, 4, 16, 3, 3, 12, 1
and 4 bytes, and throws for every value that is none of the eight. -/
theorem sizeOf_texture_format :
    OSPTextureFormat.sizeOf .OSP_TEXTURE_RGBA8 = .ok 4 ∧
    OSPTextureFormat.sizeOf .OSP_TEXTURE_SRGBA = .ok 4 ∧
    OSPTextureFormat.sizeOf .OSP_TEXTURE_RGBA32F = .ok 16 ∧
    OSPTextureFormat.sizeOf .OSP_TEXTURE_RGB8 = .ok 3 ∧
    OSPTextureFormat.sizeOf .OSP_TEXTURE_SRGB = .ok 3 ∧
    OSPTextureFormat.sizeOf .OSP_TEXTURE_RGB32F = .ok 12 ∧
    OSPTextureFormat.sizeOf .OSP_TEXTURE_R8 = .ok 1 ∧
    OSPTextureFormat.sizeOf .OSP_TEXTURE_R32F = .ok 4 ∧
    ∀ f : OSPTextureFormat,
      (f ∉ [OSPTextureFormat.OSP_TEXTURE_RGBA8, .OSP_TEXTURE_SRGBA, .OSP_TEXTURE_RGBA32F,
            .OSP_TEXTURE_RGB8, .OSP_TEXTURE_SRGB, .OSP_TEXTURE_RGB32F, .OSP_TEXTURE_R8,
            .OSP_TEXTURE_R32F]) ↔
      ∃ e, OSPTextureFormat.sizeOf f = .error e := by
  refine ⟨rfl, rfl, rfl, rfl, rfl, rfl, rfl, rfl, ?_⟩
  intro f
  cases f <;> simp [OSPTextureFormat.sizeOf]

/-- On a non-null string `typeForString` is the comparison chain over its
table. -/
theorem typeForString_eq_chain (s : String) :
    typeForString (some s) = strcmpChain typeNameTable s := rfl

/-- A chain that does not end in `OSP_UNKNOWN` has matched a name of its
table. -/
theorem strcmpChain_ne_unknown (tb : List (String × OSPDataType)) (s : String)
    (h : strcmpChain tb s ≠ .OSP_UNKNOWN) : s ∈ tb.map Prod.fst := by
  induction tb with
  | nil => exact absurd rfl h
  | cons e rest ih =>
    obtain ⟨name, tag⟩ := e
    by_cases hs : s = name
    · simp [hs]
    · simp only [strcmpChain, if_neg hs] at h
      simp [ih h]

/-- A name of the table makes the chain return a tag of the table. -/
theorem strcmpChain_mem (tb : List (String × OSPDataType)) (s : String)
    (hmem : s ∈ tb.map Prod.fst) : strcmpChain tb s ∈ tb.map Prod.snd := by
  induction tb with
  | nil => simp at hmem
  | cons e rest ih =>
    obtain ⟨name, tag⟩ := e
    by_cases hs : s = name
    · simp [strcmpChain, hs]
    · have hrest : s ∈ rest.map Prod.fst := by
        simpa [hs] using hmem
      simp only [strcmpChain, if_neg hs]
      exact List.mem_cons_of_mem _ (ih hrest)

/-- When every tag of the table is named after its entry, the tag that the
chain returns for `s` is named `s`. -/
theorem strcmpChain_name (tb : List (String × OSPDataType)) (s : String)
    (htb : ∀ e, e ∈ tb → stringForType e.2 = .ok e.1)
    (h : strcmpChain tb s ≠ .OSP_UNKNOWN) : stringForType (strcmpChain tb s) = .ok s := by
  induction tb with
  | nil => exact absurd rfl h
  | cons e rest ih =>
    obtain ⟨name, tag⟩ := e
    by_cases hs : s = name
    · simp only [strcmpChain, if_pos hs]
      rw [hs]
      exact htb (name, tag) (List.mem_cons_self _ _)
    · simp only [strcmpChain, if_neg hs] at h ⊢
      exact ih (fun e he => htb e (List.mem_cons_of_mem _ he)) h

/-- Every tag of the table of `typeForString` carries the name of its entry
in `stringForType`. -/
theorem typeNameTable_names : ∀ e, e ∈ typeNameTable → stringForType e.2 = .ok e.1 := by
  intro e he
  simp only [typeNameTable, List.mem_cons, List.mem_singleton, List.not_mem_nil, or_false] at he
  rcases he with h | h | h | h | h | h | h | h | h | h | h | h | h | h | h | h | h | h | h <;>
    (rw [h]; rfl)

/-- No tag of the table of `typeForString` is `OSP_UNKNOWN`. -/
theorem typeNameTable_known : OSPDataType.OSP_UNKNOWN ∉ typeNameTable.map Prod.snd := by
  decide

/-- C20: for every string `s` (`none` is the null pointer), `typeForString(s)`
differs from `OSP_UNKNOWN` exactly when `s` is one of the 19 names `char`,
`double`, `float`, `float2`, `float3`, `float4`, `int`, `int2`, `int3`,
`int4`, `uchar`, `uchar2`, `uchar3`, `uchar4`, `ushort`, `uint`, `uint2`,
`uint3`, `uint4`, and then `stringForType(typeForString(s))` is `s` again;
the null pointer and every other string give `OSP_UNKNOWN`, on which `sizeOf`
and `stringForType` both throw. -/
theorem typeForString_known_names (s : Option String) :
    (typeForString s ≠ .OSP_UNKNOWN ↔ ∃ name, name ∈ knownTypeNames ∧ s = some name) ∧
    (∀ name, s = some name → typeForString s ≠ .OSP_UNKNOWN →
      stringForType (typeForString s) = .ok name) ∧
    typeForString none = .OSP_UNKNOWN ∧
    (∃ e, sizeOf .OSP_UNKNOWN = .error e) ∧
    (∃ e, stringForType .OSP_UNKNOWN = .error e) := by
  have hnames : knownTypeNames = typeNameTable.map Prod.fst := rfl
  refine ⟨?_, ?_, rfl, ⟨_, rfl⟩, ⟨_, rfl⟩⟩
  · cases s with
    | none =>
      constructor
      · intro h; exact absurd rfl h
      · rintro ⟨name, _, h⟩; cases h
    | some str =>
      rw [typeForString_eq_chain, hnames]
      constructor
      · intro h
        exact ⟨str, strcmpChain_ne_unknown _ _ h, rfl⟩
      · rintro ⟨name, hmem, h⟩
        cases h
        intro hu
        exact typeNameTable_known (hu ▸ strcmpChain_mem _ _ hmem)
  · intro name hs hne
    subst hs
    rw [typeForString_eq_chain] at hne ⊢
    exact strcmpChain_name _ _ typeNameTable_names hne

namespace coi

open OSPDataType COIRESULT

/-- The `default:` case of the switch of `set_value` is taken exactly for the
tags outside the 14 cases. -/
theorem setValueCase_eq_none_iff {σ : Type} (D : DataStream σ) (s : State)
    (type : OSPDataType) (args : σ) :
    setValueCase D s type args = none ↔
      type ∉ [OSP_INT, OSP_INT2, OSP_INT3, OSP_INT4, OSP_UINT, OSP_UINT2, OSP_UINT3,
              OSP_UINT4, OSP_FLOAT, OSP_FLOAT2, OSP_FLOAT3, OSP_FLOAT4, OSP_STRING,
              OSP_OBJECT] := by
  cases type <;> simp [setValueCase]

/-- C17: for a target bound to a live object, `set_value` throws exactly when
the type tag read from the stream is none of `INT`, `INT2`, `INT3`, `INT4`,
`UINT`, `UINT2`, `UINT3`, `UINT4`, `FLOAT`, `FLOAT2`, `FLOAT3`, `FLOAT4`,
`STRING`, `OBJECT`; for each of these 14 it returns normally; when it throws,
the state at the throw is the state before the call, so the target and its
property bag are unchanged. -/
theorem set_value_raises_iff {σ : Type} (D : DataStream σ) (s : State) (target : Handle)
    (name : String) (args : σ) (o : ManagedObject)
    (hobj : s.deref (Handle.lookup s target) = some o) :
    ((∃ e s', ospray_coi_set_value D s target name args = .raised e s') ↔
      (D.get_OSPDataType args).1 ∉
        [OSP_INT, OSP_INT2, OSP_INT3, OSP_INT4, OSP_UINT, OSP_UINT2, OSP_UINT3, OSP_UINT4,
         OSP_FLOAT, OSP_FLOAT2, OSP_FLOAT3, OSP_FLOAT4, OSP_STRING, OSP_OBJECT]) ∧
    ((D.get_OSPDataType args).1 ∈
        [OSP_INT, OSP_INT2, OSP_INT3, OSP_INT4, OSP_UINT, OSP_UINT2, OSP_UINT3, OSP_UINT4,
         OSP_FLOAT, OSP_FLOAT2, OSP_FLOAT3, OSP_FLOAT4, OSP_STRING, OSP_OBJECT] →
      ∃ s', ospray_coi_set_value D s target name args = .ok s') ∧
    (∀ e s', ospray_coi_set_value D s target name args = .raised e s' →
      s' = s ∧ s'.deref (Handle.lookup s' target) = some o) := by
  have hne : Handle.lookup s target ≠ 0 := ne_zero_of_deref s _ o hobj
  have hiff := setValueCase_eq_none_iff D s (D.get_OSPDataType args).1 (D.get_OSPDataType args).2
  cases hv : setValueCase D s (D.get_OSPDataType args).1 (D.get_OSPDataType args).2 with
  | none =>
    have hrun : ospray_coi_set_value D s target name args =
        .raised (.c_string "ospray_coi_set_value no timplemented for given data type") s := by
      simp only [ospray_coi_set_value, hne, if_false, hv]
    have hnot := hiff.mp hv
    refine ⟨⟨fun _ => hnot, fun _ => ⟨_, _, hrun⟩⟩, fun hin => absurd hin hnot, ?_⟩
    intro e s' h
    rw [hrun] at h
    cases h
    exact ⟨rfl, hobj⟩
  | some v =>
    have hrun : ospray_coi_set_value D s target name args =
        .ok { s with
              heap := Function.update s.heap (Handle.lookup s target)
                (some (o.set name v)) } := by
      simp only [ospray_coi_set_value, hne, if_false, hv, hobj]
    have hin : ¬ (D.get_OSPDataType args).1 ∉
        [OSP_INT, OSP_INT2, OSP_INT3, OSP_INT4, OSP_UINT, OSP_UINT2, OSP_UINT3, OSP_UINT4,
         OSP_FLOAT, OSP_FLOAT2, OSP_FLOAT3, OSP_FLOAT4, OSP_STRING, OSP_OBJECT] := by
      intro hnot
      rw [hiff.mpr hnot] at hv
      cases hv
    refine ⟨⟨?_, fun h => absurd h hin⟩, fun _ => ⟨_, hrun⟩, ?_⟩
    · rintro ⟨e, s', h⟩
      rw [hrun] at h
      cases h
    · intro e s' h
      rw [hrun] at h
      cases h

/-- C17 at scenario S4: the tag `DOUBLE` makes `set_value` on the bound camera
throw. -/
theorem set_value_raises_iff_witness :
    ((∃ e s', ospray_coi_set_value exampleStream exampleS4 30 "pos"
        (OSP_DOUBLE, [0, 1072693248]) = .raised e s') ↔
      (exampleStream.get_OSPDataType (OSP_DOUBLE, [0, 1072693248])).1 ∉
        [OSP_INT, OSP_INT2, OSP_INT3, OSP_INT4, OSP_UINT, OSP_UINT2, OSP_UINT3, OSP_UINT4,
         OSP_FLOAT, OSP_FLOAT2, OSP_FLOAT3, OSP_FLOAT4, OSP_STRING, OSP_OBJECT]) ∧
    ((exampleStream.get_OSPDataType (OSP_DOUBLE, [0, 1072693248])).1 ∈
        [OSP_INT, OSP_INT2, OSP_INT3, OSP_INT4, OSP_UINT, OSP_UINT2, OSP_UINT3, OSP_UINT4,
         OSP_FLOAT, OSP_FLOAT2, OSP_FLOAT3, OSP_FLOAT4, OSP_STRING, OSP_OBJECT] →
      ∃ s', ospray_coi_set_value exampleStream exampleS4 30 "pos"
        (OSP_DOUBLE, [0, 1072693248]) = .ok s') ∧
    (∀ e s', ospray_coi_set_value exampleStream exampleS4 30 "pos"
        (OSP_DOUBLE, [0, 1072693248]) = .raised e s' →
      s' = exampleS4 ∧ s'.deref (Handle.lookup s' 30) = some exampleCamera) :=
  set_value_raises_iff exampleStream exampleS4 30 "pos" (OSP_DOUBLE, [0, 1072693248])
    exampleCamera rfl

end coi

/-- No element of the catalogue is wider than 32 bytes. -/
theorem sizeOf_le (t : OSPDataType) (w : Nat) (h : sizeOf t = .ok w) : w ≤ 32 := by
  cases t <;> simp [sizeOf, sizeof_ptr] at h <;> omega

/-- The byte count `nitems * sizeOf(format)` does not wrap in `size_t` for a
32-bit count. -/
theorem size_t_product (n w : Nat) (hn : n < 2 ^ 31) (hw : w ≤ 32) :
    (((n : Int) * (w : Int)) % (2 ^ 64 : Int)).toNat = n * w := by
  have hlt : n * w < 2 ^ 64 := by
    calc n * w ≤ 2 ^ 31 * 32 := Nat.mul_le_mul (Nat.le_of_lt hn) hw
      _ < 2 ^ 64 := by norm_num
  rw [← Nat.cast_mul]
  omega

namespace coi

open OSPDataType COIRESULT

/-- The state that `create_new_empty_data` returns on a tag of the catalogue
other than `STRING` when `new char[]` can provide the bytes: a zeroed region
at `brk`, the `Data` at `brk + 1`, the handle bound to it. -/
theorem create_new_empty_data_ok (E : Engine) (s : State) (handle : Handle) (n : Nat)
    (t : OSPDataType) (flags : Nat) (w : Nat)
    (hstr : t ≠ OSP_STRING) (hcat : sizeOf t = .ok w) (hn : n < 2 ^ 31)
    (hfresh : s.objectByHandle handle = none) (hmem : n * w ≤ s.available) :
    ospray_coi_create_new_empty_data E s handle n t flags =
      .ok { s with
            mem := Function.update s.mem s.brk (some (List.replicate (n * w) 0)),
            available := s.available - n * w,
            heap := Function.update s.heap (s.brk + 1)
              (some (Data.new n t s.brk (flags ||| E.OSP_DATA_SHARED_BUFFER))),
            brk := s.brk + 1 + 1,
            objectByHandle := Function.update s.objectByHandle handle (some (s.brk + 1)) } := by
  have hsz := size_t_product n w hn (sizeOf_le t w hcat)
  simp only [ospray_coi_create_new_empty_data, hstr, if_false, hcat, hsz, State.allocZeroed,
    hmem, if_true, State.alloc, Handle.assign, hfresh]

/-- When `new char[]` cannot provide the bytes, `create_new_empty_data` throws
`std::bad_alloc` from the state it was called in. -/
theorem create_new_empty_data_bad_alloc (E : Engine) (s : State) (handle : Handle) (n : Nat)
    (t : OSPDataType) (flags : Nat) (w : Nat)
    (hstr : t ≠ OSP_STRING) (hcat : sizeOf t = .ok w) (hn : n < 2 ^ 31)
    (hmem : s.available < n * w) :
    ospray_coi_create_new_empty_data E s handle n t flags = .raised .bad_alloc s := by
  have hsz := size_t_product n w hn (sizeOf_le t w hcat)
  have hnot : ¬ n * w ≤ s.available := by omega
  simp only [ospray_coi_create_new_empty_data, hstr, if_false, hcat, hsz, State.allocZeroed,
    hnot]

/-- C11, as stated, fails. In scenario S3, where `new char[]` can provide
`2^32` bytes, `create_new_empty_data(h_d, 2147483647, LONG4, 0)` asks for
`2147483647 * 32` bytes: `LONG4` is a tag of the catalogue other than
`STRING`, the count is not negative and the handle is not bound, and the verb
throws `std::bad_alloc`; the state at the throw is the one before the call, so
the handle is bound to no `Data`. -/
theorem create_new_empty_data_bad_alloc_counterexample :
    OSP_LONG4 ≠ OSP_STRING ∧ sizeOf OSP_LONG4 = .ok 32 ∧
    exampleS3.objectByHandle 11 = none ∧ exampleS3.available = 2 ^ 32 ∧
    ospray_coi_create_new_empty_data exampleEngine exampleS3 11 2147483647 OSP_LONG4 0
      = .raised .bad_alloc exampleS3 :=
  ⟨by decide, rfl, rfl, rfl, by
    simp [ospray_coi_create_new_empty_data, sizeOf, State.allocZeroed, exampleS3]⟩

/-- C11, amended: let `t` be a tag of the catalogue other than `STRING`
(`sizeOf(t)` is `w`), `n` a count of the 32-bit range and `h` a handle that is
not bound yet. When `new char[]` can provide `n * w` bytes,
`create_new_empty_data(h, n, t, flags)` returns normally; afterwards `h` is
bound to a `Data` with element count `n` and element type `t` whose region is
a fresh one of exactly `n * w` bytes, each of them zero. When it cannot, the
verb throws `std::bad_alloc` from the state it was called in: nothing is
created or bound. -/
theorem create_new_empty_data_region (E : Engine) (s : State) (handle : Handle) (n : Nat)
    (t : OSPDataType) (flags : Nat) (w : Nat)
    (hstr : t ≠ OSP_STRING) (hcat : sizeOf t = .ok w) (hn : n < 2 ^ 31)
    (hfresh : s.objectByHandle handle = none) :
    (n * w ≤ s.available →
      ∃ s' region,
        ospray_coi_create_new_empty_data E s handle n t flags = .ok s' ∧
        s'.objectByHandle handle = some (s.brk + 1) ∧
        s'.heap (s.brk + 1)
          = some (Data.new n t s.brk (flags ||| E.OSP_DATA_SHARED_BUFFER)) ∧
        s'.mem s.brk = some region ∧
        region.length = n * w ∧
        (∀ k, k < region.length → region[k]? = some 0) ∧
        region = List.replicate (n * w) 0) ∧
    (s.available < n * w →
      ospray_coi_create_new_empty_data E s handle n t flags = .raised .bad_alloc s) := by
  refine ⟨fun hmem => ?_, create_new_empty_data_bad_alloc E s handle n t flags w hstr hcat hn⟩
  refine ⟨_, List.replicate (n * w) 0,
    create_new_empty_data_ok E s handle n t flags w hstr hcat hn hfresh hmem, ?_, ?_, ?_,
    by simp, ?_, rfl⟩
  · simp
  · simp
  · simp
  · intro k hk
    simp at hk
    simp [hk]

/-- C11, amended, on scenario S3, scaled to two floats:
`create_new_empty_data(h_d, 2, FLOAT, 0)` creates a region of eight zero
bytes. -/
theorem create_new_empty_data_region_witness :
    ∃ s' region,
      ospray_coi_create_new_empty_data exampleEngine exampleS3 11 (2 : Nat) OSP_FLOAT 0
        = .ok s' ∧
      s'.objectByHandle 11 = some (exampleS3.brk + 1) ∧
      s'.heap (exampleS3.brk + 1)
        = some (Data.new (2 : Nat) OSP_FLOAT exampleS3.brk
            (0 ||| exampleEngine.OSP_DATA_SHARED_BUFFER)) ∧
      s'.mem exampleS3.brk = some region ∧
      region.length = 2 * 4 ∧
      (∀ k, k < region.length → region[k]? = some 0) ∧
      region = List.replicate (2 * 4) 0 :=
  (create_new_empty_data_region exampleEngine exampleS3 11 2 OSP_FLOAT 0 4
    (by decide) rfl (by norm_num) rfl).1 (by decide)

end coi

/-- The flag word `flags | shared` carries every bit of `shared` and, at the
other positions, the bits of `flags`. -/
theorem or_flag_bits (flags shared : Nat) :
    (flags ||| shared) &&& shared = shared ∧
    (∀ i, shared.testBit i = false → (flags ||| shared).testBit i = flags.testBit i) ∧
    (∀ i, flags.testBit i = true → (flags ||| shared).testBit i = true) := by
  refine ⟨?_, ?_, ?_⟩
  · apply Nat.eq_of_testBit_eq
    intro i
    rw [Nat.testBit_and, Nat.testBit_or]
    cases flags.testBit i <;> cases shared.testBit i <;> rfl
  · intro i hi
    rw [Nat.testBit_or, hi, Bool.or_false]
  · intro i hi
    rw [Nat.testBit_or, hi, Bool.true_or]

namespace coi

open OSPDataType COIRESULT

/-- A `Handle::assign` that returns has bound the handle and changed nothing
else. -/
theorem assign_ok (s s' : State) (h : Handle) (p : Ptr) (hrun : Handle.assign s h p = .ok s') :
    s' = { s with objectByHandle := Function.update s.objectByHandle h (some p) } := by
  unfold Handle.assign at hrun
  cases hb : s.objectByHandle h with
  | none => rw [hb] at hrun; cases hrun; rfl
  | some q => rw [hb] at hrun; cases hrun

/-- Whenever `new_data` returns, the handle is bound to a `Data` over the
bulk buffer whose flag word is `flags | OSP_DATA_SHARED_BUFFER`. -/
theorem new_data_ok_flags (E : Engine) (s s' : State) (handle : Handle) (nitems : Int)
    (format : OSPDataType) (flags : Nat) (bufferPtr0 : Ptr) (res : COIRESULT)
    (hrun : ospray_coi_new_data E s handle nitems format flags bufferPtr0 res = .ok s') :
    ∃ p, s'.objectByHandle handle = some p ∧
      s'.heap p
        = some (Data.new nitems format bufferPtr0 (flags ||| E.OSP_DATA_SHARED_BUFFER)) := by
  unfold ospray_coi_new_data at hrun
  cases res with
  | failure name => cases hrun
  | COI_SUCCESS =>
    simp only at hrun
    by_cases hs : format = OSP_STRING
    · rw [if_pos hs] at hrun; cases hrun
    · rw [if_neg hs] at hrun
      by_cases ho : format = OSP_OBJECT
      · rw [if_pos ho] at hrun
        cases hl : rewriteLoop bufferPtr0 nitems.toNat 0
            { s with
              bufferRefs :=
                Function.update s.bufferRefs bufferPtr0 (s.bufferRefs bufferPtr0 + 1) } with
        | none => rw [hl] at hrun; cases hrun
        | some s1 =>
          rw [hl] at hrun
          have := assign_ok _ _ _ _ hrun
          subst this
          exact ⟨s1.brk, by simp [State.alloc], by simp [State.alloc]⟩
      · rw [if_neg ho] at hrun
        have := assign_ok _ _ _ _ hrun
        subst this
        exact ⟨s.brk, by simp [State.alloc], by simp [State.alloc]⟩

/-- Whenever `create_new_empty_data` returns, the handle is bound to a `Data`
over the region the verb allocated, whose flag word is
`flags | OSP_DATA_SHARED_BUFFER`. -/
theorem create_new_empty_data_ok_flags (E : Engine) (s s' : State) (handle : Handle)
    (nitems : Int) (format : OSPDataType) (flags : Nat)
    (hrun : ospray_coi_create_new_empty_data E s handle nitems format flags = .ok s') :
    ∃ p bytes, s'.objectByHandle handle = some p ∧
      s'.heap p
        = some (Data.new nitems format s.brk (flags ||| E.OSP_DATA_SHARED_BUFFER)) ∧
      s'.mem s.brk = some bytes := by
  unfold ospray_coi_create_new_empty_data at hrun
  by_cases hs : format = OSP_STRING
  · rw [if_pos hs] at hrun; cases hrun
  · rw [if_neg hs] at hrun
    cases hw : sizeOf format with
    | error e => rw [hw] at hrun; cases hrun
    | ok w =>
      rw [hw] at hrun
      simp only [State.allocZeroed] at hrun
      by_cases hmem : ((nitems * (w : Int)) % (2 ^ 64 : Int)).toNat ≤ s.available
      · rw [if_pos hmem] at hrun
        have := assign_ok _ _ _ _ hrun
        subst this
        exact ⟨s.brk + 1, List.replicate ((nitems * (w : Int)) % (2 ^ 64 : Int)).toNat 0,
          by simp [State.alloc], by simp [State.alloc], by simp [State.alloc]⟩
      · rw [if_neg hmem] at hrun
        cases hrun

/-- C18: whenever `new_data` or `create_new_empty_data` returns, the `Data` it
has bound to the handle stores the flag word `flags | OSP_DATA_SHARED_BUFFER`:
the word carries the `SHARED_BUFFER` flag whatever `flags` was, and every
other bit of it is the bit of `flags`. For `create_new_empty_data` the region
of that `Data` is the one the verb allocated with `new char[]`; as the flag is
set, the destruction of the `Data` leaves that region allocated. -/
theorem data_carries_shared_buffer (E : Engine) (s s' : State) (handle : Handle)
    (nitems : Int) (format : OSPDataType) (flags : Nat) (bufferPtr0 : Ptr) (res : COIRESULT) :
    (ospray_coi_new_data E s handle nitems format flags bufferPtr0 res = .ok s' →
      ∃ p, s'.objectByHandle handle = some p ∧
        s'.heap p
          = some (Data.new nitems format bufferPtr0 (flags ||| E.OSP_DATA_SHARED_BUFFER))) ∧
    (ospray_coi_create_new_empty_data E s handle nitems format flags = .ok s' →
      ∃ p bytes, s'.objectByHandle handle = some p ∧
        s'.heap p
          = some (Data.new nitems format s.brk (flags ||| E.OSP_DATA_SHARED_BUFFER)) ∧
        s'.mem s.brk = some bytes ∧
        (E.OSP_DATA_SHARED_BUFFER ≠ 0 →
          (Data.destroy E s'
            ⟨nitems, format, s.brk, flags ||| E.OSP_DATA_SHARED_BUFFER⟩).mem s.brk
            = some bytes)) ∧
    (flags ||| E.OSP_DATA_SHARED_BUFFER) &&& E.OSP_DATA_SHARED_BUFFER
      = E.OSP_DATA_SHARED_BUFFER ∧
    (∀ i, E.OSP_DATA_SHARED_BUFFER.testBit i = false →
      (flags ||| E.OSP_DATA_SHARED_BUFFER).testBit i = flags.testBit i) := by
  obtain ⟨hb1, hb2, -⟩ := or_flag_bits flags E.OSP_DATA_SHARED_BUFFER
  refine ⟨new_data_ok_flags E s s' handle nitems format flags bufferPtr0 res, ?_, hb1, hb2⟩
  intro hrun
  obtain ⟨p, bytes, h1, h2, h3⟩ :=
    create_new_empty_data_ok_flags E s s' handle nitems format flags hrun
  refine ⟨p, bytes, h1, h2, h3, ?_⟩
  intro hsb
  have hflag : (flags ||| E.OSP_DATA_SHARED_BUFFER) &&& E.OSP_DATA_SHARED_BUFFER ≠ 0 := by
    rw [hb1]; exact hsb
  simp only [Data.destroy, hflag, ne_eq, not_false_eq_true, if_true]
  exact h3

/-- C18 at concrete calls with the flag word 6 and the flag constant 1: the
`Data` that `new_data` creates over the buffer of scenario S2 and the `Data`
that `create_new_empty_data` creates in scenario S3 both store the word 7, and
destroying the latter leaves its eight bytes allocated. -/
theorem data_carries_shared_buffer_witness :
    (∃ s' p, ospray_coi_new_data exampleEngine exampleS2 11 4 OSP_FLOAT 6 50 COI_SUCCESS
        = .ok s' ∧
      s'.objectByHandle 11 = some p ∧
      s'.heap p = some (Data.new 4 OSP_FLOAT 50 7)) ∧
    (∃ s' p bytes, ospray_coi_create_new_empty_data exampleEngine exampleS3 11 2 OSP_FLOAT 6
        = .ok s' ∧
      s'.objectByHandle 11 = some p ∧
      s'.heap p = some (Data.new 2 OSP_FLOAT 700 7) ∧
      s'.mem 700 = some bytes ∧
      (Data.destroy exampleEngine s' ⟨2, OSP_FLOAT, 700, 7⟩).mem 700 = some bytes) := by
  constructor
  · obtain ⟨p, h1, h2⟩ :=
      (data_carries_shared_buffer exampleEngine exampleS2 _ 11 4 OSP_FLOAT 6 50 COI_SUCCESS).1
        rfl
    exact ⟨_, p, rfl, h1, h2⟩
  · obtain ⟨p, bytes, h1, h2, h3, h4⟩ :=
      (data_carries_shared_buffer exampleEngine exampleS3 _ 11 2 OSP_FLOAT 6 50
        COI_SUCCESS).2.1 rfl
    exact ⟨_, p, bytes, rfl, h1, h2, h3, h4 (by decide)⟩

end coi

/-! ## Chunked upload -/

/-- A copy within the bounds keeps the length of the destination. -/
theorem length_memcpy (dst src : List Nat) (begin size : Nat)
    (hfit : begin + size ≤ dst.length) (hsrc : size ≤ src.length) :
    (memcpy dst begin src size).length = dst.length := by
  simp only [memcpy, List.length_append, List.length_take, List.length_drop]
  omega

/-- The copied range holds the first bytes of the source. -/
theorem getElem?_memcpy_inside (dst src : List Nat) (begin size k : Nat)
    (hfit : begin + size ≤ dst.length) (hsrc : size ≤ src.length) (hk : k < size) :
    (memcpy dst begin src size)[begin + k]? = src[k]? := by
  have h1 : (dst.take begin).length = begin := by simp; omega
  have h2 : (src.take size).length = size := by simp; omega
  unfold memcpy
  rw [List.append_assoc, List.getElem?_append_right (by omega), h1,
    List.getElem?_append_left (by omega), List.getElem?_take]
  simp [hk]

/-- Outside the copied range the destination keeps its bytes. -/
theorem getElem?_memcpy_outside (dst src : List Nat) (begin size k : Nat)
    (hfit : begin + size ≤ dst.length) (hsrc : size ≤ src.length)
    (hk : k < begin ∨ begin + size ≤ k) :
    (memcpy dst begin src size)[k]? = dst[k]? := by
  have h1 : (dst.take begin).length = begin := by simp; omega
  have h2 : (src.take size).length = size := by simp; omega
  unfold memcpy
  rcases hk with hk | hk
  · rw [List.append_assoc, List.getElem?_append_left (by omega), List.getElem?_take]
    simp [hk]
  · rw [List.getElem?_append_right (by simp; omega), List.length_append, h1, h2,
      List.getElem?_drop]
    congr 1
    omega

/-- A copy over the whole destination from a source of the same length gives
the source. -/
theorem memcpy_whole (dst src : List Nat) (hlen : src.length = dst.length) :
    memcpy dst 0 src dst.length = src := by
  have h1 : src.take dst.length = src := List.take_of_length_le (by omega)
  have h2 : dst.drop (0 + dst.length) = [] := List.drop_of_length_le (by omega)
  unfold memcpy
  rw [h1, h2]
  simp

namespace coi

open OSPDataType COIRESULT

/-- The state that `upload_data_chunk` returns for a copy within the bounds
of the `Data` region and of the staging buffer. -/
theorem upload_data_chunk_ok (s : State) (handle : Handle) (o : ManagedObject) (d : Data)
    (dst src : List Nat) (begin size : Nat)
    (hdata : s.deref (Handle.lookup s handle) = some o) (hpay : o.payload = .data d)
    (hdst : s.mem d.data = some dst) (hsrc : s.mem s.uploadBuffer = some src)
    (hfit : begin + size ≤ dst.length) (hlen : size ≤ src.length)
    (hsep : d.data = s.uploadBuffer → size ≤ begin) :
    ospray_coi_upload_data_chunk s handle begin size =
      .ok { s with
            mem := Function.update s.mem d.data (some (memcpy dst begin src size)) } := by
  have hcond : (0 : Int) ≤ begin ∧ (0 : Int) ≤ size ∧ (begin : Int) + size ≤ dst.length ∧
      (size : Int) ≤ src.length ∧ (d.data = s.uploadBuffer → (size : Int) ≤ begin) := by
    refine ⟨by omega, by omega, by omega, by omega, fun h => ?_⟩
    have := hsep h
    omega
  simp only [ospray_coi_upload_data_chunk, hdata, hpay, hdst, hsrc]
  rw [if_pos hcond]
  simp only [Int.toNat_natCast]

/-- C12: let `h` be bound to a live `Data` whose region `R` has length `L`,
let `pin_upload_buffer` designate a mapped staging buffer `B`, and let
`begin + size <= L` and `size <= |B|` (when the staging buffer is the `Data`
region itself, source and destination of the copy must not overlap). Then
`upload_data_chunk(h, begin, size)` returns normally; afterwards the region
has its length `L`, its bytes at `begin .. begin+size-1` are `B[0 .. size-1]`
and every byte outside that range is unchanged, no other region changes, and
a chunk with `begin = 0` and `size = L = |B|` makes the region equal to `B`. -/
theorem upload_data_chunk_copies (s : State) (handle : Handle) (b : Ptr) (o : ManagedObject)
    (d : Data) (R B : List Nat) (begin size : Nat)
    (hdata : s.deref (Handle.lookup s handle) = some o) (hpay : o.payload = .data d)
    (hR : s.mem d.data = some R) (hB : s.mem b = some B)
    (hfit : begin + size ≤ R.length) (hlen : size ≤ B.length)
    (hsep : d.data = b → size ≤ begin) :
    ∃ s1 s' R',
      ospray_coi_pin_upload_buffer s b = .ok s1 ∧
      ospray_coi_upload_data_chunk s1 handle begin size = .ok s' ∧
      s'.mem d.data = some R' ∧ R'.length = R.length ∧
      (∀ k, k < size → R'[begin + k]? = B[k]?) ∧
      (∀ k, k < begin ∨ begin + size ≤ k → R'[k]? = R[k]?) ∧
      (begin = 0 → size = R.length → size = B.length → R' = B) ∧
      (∀ q, q ≠ d.data → s'.mem q = s.mem q) := by
  refine ⟨{ s with uploadBuffer := b }, _, memcpy R begin B size, rfl,
    upload_data_chunk_ok { s with uploadBuffer := b } handle o d R B begin size
      hdata hpay hR hB hfit hlen hsep,
    by simp, length_memcpy R B begin size hfit hlen,
    fun k hk => getElem?_memcpy_inside R B begin size k hfit hlen hk,
    fun k hk => getElem?_memcpy_outside R B begin size k hfit hlen hk, ?_, ?_⟩
  · intro h0 hL hBl
    subst h0
    rw [hL]
    exact memcpy_whole R B (by omega)
  · intro q hq
    simp [Function.update_noteq hq]

/-- C12 on scenario S3, scaled to two floats: after `pin_upload_buffer(B)`,
`upload_data_chunk(h_d, 0, 8)` makes the eight bytes of the region equal to
`B`. -/
theorem upload_data_chunk_copies_witness :
    ∃ s1 s' R',
      ospray_coi_pin_upload_buffer exampleS3Created 80 = .ok s1 ∧
      ospray_coi_upload_data_chunk s1 11 (0 : Nat) (8 : Nat) = .ok s' ∧
      s'.mem 700 = some R' ∧ R'.length = [0, 0, 0, 0, 0, 0, 0, 0].length ∧
      (∀ k, k < 8 → R'[0 + k]? = [170, 170, 170, 170, 170, 170, 170, 170][k]?) ∧
      (∀ k, k < 0 ∨ 0 + 8 ≤ k → R'[k]? = [0, 0, 0, 0, 0, 0, 0, 0][k]?) ∧
      (0 = 0 → 8 = [0, 0, 0, 0, 0, 0, 0, 0].length →
        8 = [170, 170, 170, 170, 170, 170, 170, 170].length →
        R' = [170, 170, 170, 170, 170, 170, 170, 170]) ∧
      (∀ q, q ≠ 700 → s'.mem q = exampleS3Created.mem q) :=
  upload_data_chunk_copies exampleS3Created 11 80 (Data.new 2 .OSP_FLOAT 700 1)
    ⟨2, .OSP_FLOAT, 700, 1⟩ [0, 0, 0, 0, 0, 0, 0, 0]
    [170, 170, 170, 170, 170, 170, 170, 170] 0 8 rfl rfl rfl rfl (by decide) (by decide)
    (by decide)

/-- Scenario S3 run from the start, scaled to two floats:
`create_new_empty_data(h_d, 2, FLOAT, 0)`, `pin_upload_buffer(B)`,
`upload_data_chunk(h_d, 0, 8)`; the region of the `Data` then equals `B`. -/
theorem scenario_S3 :
    ∃ s', (((ospray_coi_create_new_empty_data exampleEngine exampleS3 11 2 OSP_FLOAT 0).andThen
        (fun s => ospray_coi_pin_upload_buffer s 80)).andThen
        (fun s => ospray_coi_upload_data_chunk s 11 0 8)) = .ok s' ∧
      s'.mem 700 = some [170, 170, 170, 170, 170, 170, 170, 170] ∧
      s'.mem 80 = some [170, 170, 170, 170, 170, 170, 170, 170] :=
  ⟨_, rfl, rfl, rfl⟩

end coi

/-! ## Load balancer -/

/-- The balancer of device `d` of `N` processes the tile `i` of a frame of
`T` tiles exactly when `i < T` and `i mod N = d`. -/
theorem mem_tiles (d N T i : Nat) :
    i ∈ (InterleavedTiledLoadBalancer.mk d N).tiles T ↔ i < T ∧ i % N = d := by
  simp only [InterleavedTiledLoadBalancer.tiles, InterleavedTiledLoadBalancer.processes,
    List.mem_filter, List.mem_range, decide_eq_true_eq]
  constructor
  · rintro ⟨h1, h2⟩
    exact ⟨h1, by exact_mod_cast h2⟩
  · rintro ⟨h1, h2⟩
    exact ⟨h1, by exact_mod_cast h2⟩

namespace coi

open OSPDataType COIRESULT

/-- C13: let `N >= 1` workers be initialized with `initialize(d, N, ...)` for
`d = 0 .. N-1`, each in its own process state. For a frame of `T` tiles the
balancer that worker `d` installs processes exactly the tile indices `i` in
`0 .. T-1` with `i mod N = d`; two different workers share no tile, and every
tile of `0 .. T-1` is processed by some worker. -/
theorem interleaved_balancer_partition (N T : Nat) (hN : 1 ≤ N) (s : Nat → State)
    (debugMode logLevel : Int) :
    (∀ d : Nat, d < N → ∀ i : Nat,
      i ∈ ( ospray_coi_initialize (s d) d N debugMode logLevel).tiles T ↔
        i < T ∧ i % N = d) ∧
    (∀ d1 d2 : Nat, d1 < N → d2 < N → d1 ≠ d2 → ∀ i : Nat,
      ¬ (i ∈ ( ospray_coi_initialize (s d1) d1 N debugMode logLevel).tiles T ∧
         i ∈ ( ospray_coi_initialize (s d2) d2 N debugMode logLevel).tiles T)) ∧
    (∀ i : Nat, i < T → ∃ d : Nat, d < N ∧
      i ∈ ( ospray_coi_initialize (s d) d N debugMode logLevel).tiles T) := by
  have hmem : ∀ d i, i ∈ ( ospray_coi_initialize (s d) d N debugMode logLevel).tiles T ↔
      i < T ∧ i % N = d := fun d i => mem_tiles d N T i
  refine ⟨fun d _ i => hmem d i, ?_, ?_⟩
  · intro d1 d2 _ _ hne i ⟨h1, h2⟩
    have e1 := ((hmem d1 i).mp h1).2
    have e2 := ((hmem d2 i).mp h2).2
    exact hne (e1.symm.trans e2)
  · intro i hi
    exact ⟨i % N, Nat.mod_lt i (by omega), (hmem (i % N) i).mpr ⟨hi, rfl⟩⟩

/-- C13 for three workers and a frame of ten tiles. -/
theorem interleaved_balancer_partition_witness :
    (∀ d : Nat, d < 3 → ∀ i : Nat,
      i ∈ ( ospray_coi_initialize exampleS2 d (3 : Nat) 0 0).tiles 10 ↔ i < 10 ∧ i % 3 = d) ∧
    (∀ d1 d2 : Nat, d1 < 3 → d2 < 3 → d1 ≠ d2 → ∀ i : Nat,
      ¬ (i ∈ ( ospray_coi_initialize exampleS2 d1 (3 : Nat) 0 0).tiles 10 ∧
         i ∈ ( ospray_coi_initialize exampleS2 d2 (3 : Nat) 0 0).tiles 10)) ∧
    (∀ i : Nat, i < 10 → ∃ d : Nat, d < 3 ∧
      i ∈ ( ospray_coi_initialize exampleS2 d (3 : Nat) 0 0).tiles 10) :=
  interleaved_balancer_partition 3 10 (by decide) (fun _ => exampleS2) 0 0

/-- The tiles of the three workers of a frame of ten tiles. -/
theorem interleaved_balancer_tiles :
    ( ospray_coi_initialize exampleS2 0 3 0 0).tiles 10 = [0, 3, 6, 9] ∧
    ( ospray_coi_initialize exampleS2 1 3 0 0).tiles 10 = [1, 4, 7] ∧
    ( ospray_coi_initialize exampleS2 2 3 0 0).tiles 10 = [2, 5, 8] := by
  decide

end coi

/-! ## Command line -/

/-- One iteration of the loop of `removeArgs`. -/
theorem removeArgsLoop_succ (h k i : Nat) (st : InitState) (a : String)
    (ha : st.av[i]? = some a) (hi : h ≤ i) (hlen : i < st.av.length) :
    removeArgsLoop h (k + 1) i st =
      removeArgsLoop h k (i + 1)
        { st with
          reads := st.reads ++ [(i, st.ac)],
          av := st.av.set (i - h) a } := by
  have hc : i - h < st.av.length ∧ h ≤ i := ⟨by omega, hi⟩
  simp only [removeArgsLoop, InitState.read, ha, hc, and_self, if_true]

/-- Effect of the loop of `removeArgs` inside the array: it returns, the
entries `i-h .. i-h+k-1` receive the entries `i .. i+k-1`, every other entry
and every other variable keep their values, and each read is at an index of
`i .. i+k-1`. -/
theorem removeArgsLoop_spec (h : Nat) (k : Nat) : ∀ (i : Nat) (st : InitState),
    h ≤ i → i + k ≤ st.av.length →
    ∃ st', removeArgsLoop h k i st = some st' ∧
      st'.ac = st.ac ∧ st'.debugMode = st.debugMode ∧ st'.numThreads = st.numThreads ∧
      st'.logLevel = st.logLevel ∧ st'.av.length = st.av.length ∧
      (∀ m, st'.av[m]? = if i - h ≤ m ∧ m < i - h + k then st.av[m + h]? else st.av[m]?) ∧
      (∀ e, e ∈ st'.reads → e ∈ st.reads ∨ (i ≤ e.1 ∧ e.1 < i + k ∧ e.2 = st.ac)) := by
  induction k with
  | zero =>
    intro i st _ _
    refine ⟨st, rfl, rfl, rfl, rfl, rfl, rfl, ?_, fun e he => Or.inl he⟩
    intro m
    have : ¬ (i - h ≤ m ∧ m < i - h + 0) := by omega
    rw [if_neg this]
  | succ k ih =>
    intro i st hi hlen
    have hil : i < st.av.length := by omega
    obtain ⟨a, ha⟩ : ∃ a, st.av[i]? = some a := ⟨st.av[i], List.getElem?_eq_getElem hil⟩
    obtain ⟨st', hrun, hac, hd, hn, hl, hlen', hget, hreads⟩ :=
      ih (i + 1)
        { st with
          reads := st.reads ++ [(i, st.ac)],
          av := st.av.set (i - h) a }
        (by omega) (by simp; omega)
    refine ⟨st', by rw [removeArgsLoop_succ h k i st a ha hi hil, hrun], hac, hd, hn, hl,
      by simpa using hlen', ?_, ?_⟩
    · intro m
      rw [hget m]
      simp only [List.getElem?_set]
      by_cases hm1 : i + 1 - h ≤ m ∧ m < i + 1 - h + k
      · have hm2 : i - h ≤ m ∧ m < i - h + (k + 1) := by omega
        have hne : ¬ (i - h = m + h) := by omega
        rw [if_pos hm1, if_pos hm2, if_neg hne]
      · rw [if_neg hm1]
        by_cases hm3 : i - h = m
        · have hm2 : i - h ≤ m ∧ m < i - h + (k + 1) := by omega
          have hmh : m + h = i := by omega
          rw [if_pos hm3, if_pos (by omega), if_pos hm2, hmh, ha]
        · have hm2 : ¬ (i - h ≤ m ∧ m < i - h + (k + 1)) := by omega
          rw [if_neg hm3, if_neg hm2]
    · intro e he
      rcases hreads e he with h1 | ⟨h1, h2, h3⟩
      · rcases List.mem_append.mp h1 with h4 | h4
        · exact Or.inl h4
        · simp only [List.mem_singleton] at h4
          subst h4
          exact Or.inr ⟨Nat.le_refl _, by omega, rfl⟩
      · exact Or.inr ⟨by omega, by omega, h3⟩

/-- Effect of `removeArgs(ac, av, w, h)` on the counted arguments when
`w + h <= ac` and the array holds `ac` entries: it returns, `ac` drops by
`h`, the counted arguments lose the `h` entries from position `w` on and keep
the others in their order, and every read is at an index below `ac`. -/
theorem removeArgs_spec (st : InitState) (w h n : Nat)
    (hac : st.ac = n) (hwh : w + h ≤ n) (hn : n ≤ st.av.length) :
    ∃ st', removeArgs st w h = some st' ∧
      st'.ac = ((n - h : Nat) : Int) ∧ st'.debugMode = st.debugMode ∧
      st'.numThreads = st.numThreads ∧ st'.logLevel = st.logLevel ∧
      st'.av.length = st.av.length ∧
      st'.args = st.args.take w ++ st.args.drop (w + h) ∧
      (∀ e, e ∈ st'.reads → e ∈ st.reads ∨ (e.1 : Int) < e.2) := by
  have hk : (st.ac - ((w + h : Nat) : Int)).toNat = n - (w + h) := by omega
  obtain ⟨st1, hrun, hac1, hd, hnt, hl, hlen, hget, hreads⟩ :=
    removeArgsLoop_spec h (n - (w + h)) (w + h) st (by omega) (by omega)
  refine ⟨{ st1 with ac := st1.ac - h }, ?_, ?_, hd, hnt, hl, hlen, ?_, ?_⟩
  · simp only [removeArgs, hk, hrun]
  · show st1.ac - (h : Int) = ((n - h : Nat) : Int)
    omega
  · have h1 : (st1.ac - (h : Int)).toNat = n - h := by omega
    have h2 : st.ac.toNat = n := by omega
    show st1.av.take (st1.ac - (h : Int)).toNat = _
    unfold InitState.args
    rw [h1, h2]
    apply List.ext_getElem?
    intro m
    have hlt : (List.take w (List.take n st.av)).length = w := by
      simp only [List.length_take]; omega
    rw [List.getElem?_take, hget m, List.getElem?_append, hlt, List.getElem?_take,
      List.getElem?_take, List.getElem?_drop, List.getElem?_take]
    by_cases hm : m < w
    · have c1 : m < n - h := by omega
      have c2 : ¬ (w + h - h ≤ m ∧ m < w + h - h + (n - (w + h))) := by omega
      have c3 : m < n := by omega
      rw [if_pos c1, if_neg c2, if_pos hm, if_pos hm, if_pos c3]
    · rw [if_neg hm]
      by_cases hm2 : m < n - h
      · have c2 : w + h - h ≤ m ∧ m < w + h - h + (n - (w + h)) := by omega
        have c3 : w + h + (m - w) < n := by omega
        have c4 : w + h + (m - w) = m + h := by omega
        rw [if_pos hm2, if_pos c2, if_pos c3, c4]
      · have c3 : ¬ (w + h + (m - w) < n) := by omega
        rw [if_neg hm2, if_neg c3]
  · intro e he
    rcases hreads e he with h1 | ⟨_, h2, h3⟩
    · exact Or.inl h1
    · right
      rw [h3, hac]
      have : e.1 < n := by omega
      exact_mod_cast this

/-- One iteration of the loop of `init` on an option without a value: the
option is read, a field of the device is set, and `removeArgs(ac, av, i, 1)`
is called. -/
theorem initLoop_flag (atoi : String → Int) (fuel i : Nat) (st : InitState) (a : String)
    (hlt : (i : Int) < st.ac) (ha : st.av[i]? = some a) (hflag : isFlagOption a) :
    ∃ st2 : InitState, st2.ac = st.ac ∧ st2.av = st.av ∧
      st2.reads = st.reads ++ [(i, st.ac)] ∧
      initLoop atoi (fuel + 1) i st =
        match removeArgs st2 i 1 with
        | none => .undefined
        | some st3 => initLoop atoi fuel i st3 := by
  rcases hflag with h | h | h
  · subst h
    exact ⟨{ st with reads := st.reads ++ [(i, st.ac)], debugMode := true, numThreads := 1 },
      rfl, rfl, rfl, by simp only [initLoop, hlt, if_true, InitState.read, ha]⟩
  · subst h
    exact ⟨{ st with reads := st.reads ++ [(i, st.ac)], logLevel := 1 },
      rfl, rfl, rfl, by
        simp only [initLoop, hlt, if_true, InitState.read, ha]
        rw [if_neg (by decide : ¬ "--osp:verbose" = "--osp:debug")]⟩
  · subst h
    exact ⟨{ st with reads := st.reads ++ [(i, st.ac)], logLevel := 2 },
      rfl, rfl, rfl, by
        simp only [initLoop, hlt, if_true, InitState.read, ha]
        rw [if_neg (by decide : ¬ "--osp:vv" = "--osp:debug"),
          if_neg (by decide : ¬ "--osp:vv" = "--osp:verbose")]⟩

/-- One iteration of the loop of `init` on an option with a value whose
operand is inside the array: option and operand are read, a field of the
device is set, and `removeArgs(ac, av, i, 2)` is called. -/
theorem initLoop_value (atoi : String → Int) (fuel i : Nat) (st : InitState) (a b : String)
    (hlt : (i : Int) < st.ac) (ha : st.av[i]? = some a) (hb : st.av[i + 1]? = some b)
    (hvalue : isValueOption a) :
    ∃ st2 : InitState, st2.ac = st.ac ∧ st2.av = st.av ∧
      st2.reads = st.reads ++ [(i, st.ac)] ++ [(i + 1, st.ac)] ∧
      initLoop atoi (fuel + 1) i st =
        match removeArgs st2 i 2 with
        | none => .undefined
        | some st3 => initLoop atoi fuel i st3 := by
  rcases hvalue with h | h | h
  · subst h
    exact ⟨{ st with
             reads := st.reads ++ [(i, st.ac)] ++ [(i + 1, st.ac)], logLevel := atoi b },
      rfl, rfl, rfl, by
        simp only [initLoop, hlt, if_true, InitState.read, ha, hb]
        rw [if_neg (by decide : ¬ "--osp:loglevel" = "--osp:debug"),
          if_neg (by decide : ¬ "--osp:loglevel" = "--osp:verbose"),
          if_neg (by decide : ¬ "--osp:loglevel" = "--osp:vv")]⟩
  · subst h
    exact ⟨{ st with
             reads := st.reads ++ [(i, st.ac)] ++ [(i + 1, st.ac)], numThreads := atoi b },
      rfl, rfl, rfl, by
        simp only [initLoop, hlt, if_true, InitState.read, ha, hb]
        rw [if_neg (by decide : ¬ "--osp:numthreads" = "--osp:debug"),
          if_neg (by decide : ¬ "--osp:numthreads" = "--osp:verbose"),
          if_neg (by decide : ¬ "--osp:numthreads" = "--osp:vv"),
          if_neg (by decide : ¬ "--osp:numthreads" = "--osp:loglevel")]
        simp only [true_or, if_true]⟩
  · subst h
    exact ⟨{ st with
             reads := st.reads ++ [(i, st.ac)] ++ [(i + 1, st.ac)], numThreads := atoi b },
      rfl, rfl, rfl, by
        simp only [initLoop, hlt, if_true, InitState.read, ha, hb]
        rw [if_neg (by decide : ¬ "--osp:num-threads" = "--osp:debug"),
          if_neg (by decide : ¬ "--osp:num-threads" = "--osp:verbose"),
          if_neg (by decide : ¬ "--osp:num-threads" = "--osp:vv"),
          if_neg (by decide : ¬ "--osp:num-threads" = "--osp:loglevel")]
        simp only [or_true, if_true]⟩

/-- One iteration of the loop of `init` on an argument that is no option: it
is read and `i` advances. -/
theorem initLoop_other (atoi : String → Int) (fuel i : Nat) (st : InitState) (a : String)
    (hlt : (i : Int) < st.ac) (ha : st.av[i]? = some a)
    (hflag : ¬ isFlagOption a) (hvalue : ¬ isValueOption a) :
    initLoop atoi (fuel + 1) i st =
      initLoop atoi fuel (i + 1) { st with reads := st.reads ++ [(i, st.ac)] } := by
  simp only [isFlagOption, isValueOption, not_or] at hflag hvalue
  obtain ⟨h1, h2, h3⟩ := hflag
  obtain ⟨h4, h5, h6⟩ := hvalue
  simp only [initLoop, hlt, if_true, InitState.read, ha]
  rw [if_neg h1, if_neg h2, if_neg h3, if_neg h4, if_neg (by
    intro h; rcases h with h | h
    · exact h5 h
    · exact h6 h)]

/-- An option with a value is no option without one. -/
theorem not_flag_of_value (a : String) (h : isValueOption a) : ¬ isFlagOption a := by
  rcases h with h | h | h <;> subst h <;> decide

theorem keptArgs_flag (a : String) (rest : List String) (h : isFlagOption a) :
    keptArgs (a :: rest) = keptArgs rest := by
  cases rest <;> simp [keptArgs, h]

theorem keptArgs_value (a b : String) (rest : List String) (h : isValueOption a) :
    keptArgs (a :: b :: rest) = keptArgs rest := by
  rw [keptArgs, if_neg (not_flag_of_value a h), if_pos h]

theorem keptArgs_other (a : String) (rest : List String) (h1 : ¬ isFlagOption a)
    (h2 : ¬ isValueOption a) : keptArgs (a :: rest) = a :: keptArgs rest := by
  cases rest <;> simp [keptArgs, h1, h2]

theorem operandsPresent_flag (a : String) (rest : List String) (h : isFlagOption a) :
    operandsPresent (a :: rest) = operandsPresent rest := by
  cases rest <;> simp [operandsPresent, h]

theorem operandsPresent_value (a b : String) (rest : List String) (h : isValueOption a) :
    operandsPresent (a :: b :: rest) = operandsPresent rest := by
  rw [operandsPresent, if_neg (not_flag_of_value a h), if_pos h]

theorem operandsPresent_value_nil (a : String) (h : isValueOption a) :
    operandsPresent [a] = false := by
  rw [operandsPresent, if_neg (not_flag_of_value a h), if_pos h]

theorem operandsPresent_other (a : String) (rest : List String) (h1 : ¬ isFlagOption a)
    (h2 : ¬ isValueOption a) : operandsPresent (a :: rest) = operandsPresent rest := by
  cases rest <;> simp [operandsPresent, h1, h2]

/-- The counted arguments of a state whose array holds `ac = n` entries. -/
theorem args_facts (st : InitState) (n : Nat) (hac : st.ac = n) (hn : n ≤ st.av.length) :
    st.args = st.av.take n ∧ st.args.length = n ∧ ∀ j, j < n → st.args[j]? = st.av[j]? := by
  have h1 : st.args = st.av.take n := by
    unfold InitState.args
    rw [hac, Int.toNat_natCast]
  refine ⟨h1, by rw [h1, List.length_take]; omega, ?_⟩
  intro j hj
  rw [h1, List.getElem?_take, if_pos hj]

/-- The loop of `init` from index `i` on well-formed arguments: when every
option with a value that is read as an option has its operand, `n - i`
iterations suffice, the loop ends without undefined behaviour, the counted
arguments before `i` stay, those from `i` on are reduced to the kept ones,
`ac` is their number, and every read is at an index below `ac`. -/
theorem initLoop_spec (atoi : String → Int) (fuel : Nat) :
    ∀ (i : Nat) (st : InitState) (n : Nat),
    st.ac = n → i ≤ n → n ≤ st.av.length → n - i ≤ fuel →
    operandsPresent (st.args.drop i) = true →
    ∃ st', initLoop atoi fuel i st = .done st' ∧
      st'.args = st.args.take i ++ keptArgs (st.args.drop i) ∧
      st'.ac = ((i + (keptArgs (st.args.drop i)).length : Nat) : Int) ∧
      st'.av.length = st.av.length ∧
      (∀ e, e ∈ st'.reads → e ∈ st.reads ∨ (e.1 : Int) < e.2) := by
  induction fuel with
  | zero =>
    intro i st n hac hi hn hfuel _
    obtain ⟨_, hlen, _⟩ := args_facts st n hac hn
    have hin : i = n := by omega
    have hnot : ¬ ((i : Int) < st.ac) := by omega
    have hdrop : st.args.drop i = [] := List.drop_of_length_le (by omega)
    have htake : st.args.take i = st.args := List.take_of_length_le (by omega)
    refine ⟨st, by simp only [initLoop, hnot, if_false], ?_, ?_, rfl, fun e he => Or.inl he⟩
    · rw [hdrop, htake]; simp [keptArgs]
    · rw [hdrop, hac, hin]; simp [keptArgs]
  | succ fuel ih =>
    intro i st n hac hi hn hfuel hops
    obtain ⟨hargs, hlen, hget⟩ := args_facts st n hac hn
    by_cases hlt : i < n
    · have hlt' : (i : Int) < st.ac := by omega
      have hil : i < st.args.length := by omega
      obtain ⟨a, ha⟩ : ∃ a, st.args[i]? = some a :=
        ⟨st.args[i], List.getElem?_eq_getElem hil⟩
      have hav : st.av[i]? = some a := by rw [← hget i hlt]; exact ha
      have hdrop : st.args.drop i = a :: st.args.drop (i + 1) := by
        rw [List.drop_eq_getElem_cons hil]
        congr 1
        have := List.getElem?_eq_getElem hil
        rw [ha] at this
        exact (Option.some.inj this).symm
      have htakelen : (st.args.take i).length = i := by
        rw [List.length_take]; omega
      -- the iterations that call `removeArgs(ac, av, i, h)`
      have key : ∀ (h : Nat) (st2 : InitState), 1 ≤ h → st2.ac = st.ac → st2.av = st.av →
          (∀ e, e ∈ st2.reads → e ∈ st.reads ∨ (e.1 : Int) < e.2) → i + h ≤ n →
          operandsPresent (st.args.drop (i + h)) = true →
          ∃ st', (match removeArgs st2 i h with
                  | none => InitResult.undefined
                  | some st3 => initLoop atoi fuel i st3) = .done st' ∧
            st'.args = st.args.take i ++ keptArgs (st.args.drop (i + h)) ∧
            st'.ac = ((i + (keptArgs (st.args.drop (i + h))).length : Nat) : Int) ∧
            st'.av.length = st.av.length ∧
            (∀ e, e ∈ st'.reads → e ∈ st.reads ∨ (e.1 : Int) < e.2) := by
        intro h st2 hh hac2 hav2 hreads2 hih hops2
        have hargs2 : st2.args = st.args := by
          unfold InitState.args; rw [hac2, hav2]
        obtain ⟨st3, hrm, hac3, -, -, -, hlen3, hargs3, hreads3⟩ :=
          removeArgs_spec st2 i h n (by rw [hac2, hac]) hih (by rw [hav2]; exact hn)
        rw [hargs2] at hargs3
        have hdrop3 : st3.args.drop i = st.args.drop (i + h) := by
          rw [hargs3]; exact List.drop_left' htakelen
        have htake3 : st3.args.take i = st.args.take i := by
          rw [hargs3]; exact List.take_left' htakelen
        obtain ⟨st', hrun, hargs', hac', hlen', hreads'⟩ :=
          ih i st3 (n - h) hac3 (by omega) (by rw [hlen3, hav2]; omega) (by omega)
            (by rw [hdrop3]; exact hops2)
        rw [hdrop3, htake3] at hargs'
        rw [hdrop3] at hac'
        refine ⟨st', by rw [hrm]; exact hrun, hargs', hac', by rw [hlen', hlen3, hav2], ?_⟩
        intro e he
        rcases hreads' e he with h1 | h1
        · rcases hreads3 e h1 with h2 | h2
          · exact hreads2 e h2
          · exact Or.inr h2
        · exact Or.inr h1
      by_cases hflag : isFlagOption a
      · -- an option without a value
        obtain ⟨st2, hac2, hav2, hreads2, hstep⟩ := initLoop_flag atoi fuel i st a hlt' hav hflag
        have hk : keptArgs (st.args.drop i) = keptArgs (st.args.drop (i + 1)) := by
          rw [hdrop]; exact keptArgs_flag a _ hflag
        have ho : operandsPresent (st.args.drop (i + 1)) = true := by
          rw [hdrop, operandsPresent_flag a _ hflag] at hops; exact hops
        obtain ⟨st', hrun, h1, h2, h3, h4⟩ := key 1 st2 (Nat.le_refl _) hac2 hav2
          (by
            intro e he
            rw [hreads2] at he
            rcases List.mem_append.mp he with h | h
            · exact Or.inl h
            · simp only [List.mem_singleton] at h
              subst h
              exact Or.inr hlt')
          (by omega) ho
        exact ⟨st', by rw [hstep]; exact hrun, by rw [hk]; exact h1, by rw [hk]; exact h2,
          h3, h4⟩
      · by_cases hvalue : isValueOption a
        · -- an option with a value: the operand is counted
          rw [hdrop] at hops
          have hil2 : i + 1 < st.args.length := by
            by_contra hc
            have : st.args.drop (i + 1) = [] := List.drop_of_length_le (by omega)
            rw [this, operandsPresent_value_nil a hvalue] at hops
            exact Bool.noConfusion hops
          have hdrop2 : st.args.drop (i + 1) = st.args[i + 1] :: st.args.drop (i + 1 + 1) :=
            List.drop_eq_getElem_cons hil2
          have hb : st.av[i + 1]? = some st.args[i + 1] := by
            rw [← hget (i + 1) (by omega)]; exact List.getElem?_eq_getElem hil2
          rw [hdrop2, operandsPresent_value a _ _ hvalue] at hops
          obtain ⟨st2, hac2, hav2, hreads2, hstep⟩ :=
            initLoop_value atoi fuel i st a st.args[i + 1] hlt' hav hb hvalue
          have hk : keptArgs (st.args.drop i) = keptArgs (st.args.drop (i + 2)) := by
            rw [hdrop, hdrop2]; exact keptArgs_value a _ _ hvalue
          obtain ⟨st', hrun, h1, h2, h3, h4⟩ := key 2 st2 (by omega) hac2 hav2
            (by
              intro e he
              rw [hreads2] at he
              rcases List.mem_append.mp he with h | h
              · rcases List.mem_append.mp h with h | h
                · exact Or.inl h
                · simp only [List.mem_singleton] at h
                  subst h
                  exact Or.inr hlt'
              · simp only [List.mem_singleton] at h
                subst h
                right
                show ((i + 1 : Nat) : Int) < st.ac
                omega)
            (by omega) hops
          exact ⟨st', by rw [hstep]; exact hrun, by rw [hk]; exact h1, by rw [hk]; exact h2,
            h3, h4⟩
        · -- no option: the argument stays
          have hstep := initLoop_other atoi fuel i st a hlt' hav hflag hvalue
          have hk : keptArgs (st.args.drop i) = a :: keptArgs (st.args.drop (i + 1)) := by
            rw [hdrop]; exact keptArgs_other a _ hflag hvalue
          have ho : operandsPresent (st.args.drop (i + 1)) = true := by
            rw [hdrop, operandsPresent_other a _ hflag hvalue] at hops; exact hops
          obtain ⟨st', hrun, h1, h2, h3, h4⟩ :=
            ih (i + 1) { st with reads := st.reads ++ [(i, st.ac)] } n hac (by omega) hn
              (by omega) ho
          have hsame : InitState.args { st with reads := st.reads ++ [(i, st.ac)] } = st.args :=
            rfl
          rw [hsame] at h1 h2
          have htake : st.args.take (i + 1) = st.args.take i ++ [a] := by
            rw [List.take_succ, ha]; rfl
          refine ⟨st', by rw [hstep]; exact hrun, ?_, ?_, h3, ?_⟩
          · rw [hk]
            show st'.args = _
            rw [h1]
            show st.args.take (i + 1) ++ _ = _
            rw [htake]
            simp
          · rw [hk, h2]
            show ((i + 1 + (keptArgs (st.args.drop (i + 1))).length : Nat) : Int) = _
            simp only [List.length_cons]
            omega
          · intro e he
            rcases h4 e he with h | h
            · show e ∈ st.reads ∨ _
              have h' : e ∈ st.reads ++ [(i, st.ac)] := h
              rcases List.mem_append.mp h' with h5 | h5
              · exact Or.inl h5
              · simp only [List.mem_singleton] at h5
                subst h5
                exact Or.inr hlt'
            · exact Or.inr h
    · -- the loop is left
      have hin : i = n := by omega
      have hnot : ¬ ((i : Int) < st.ac) := by omega
      have hdrop : st.args.drop i = [] := List.drop_of_length_le (by omega)
      have htake : st.args.take i = st.args := List.take_of_length_le (by omega)
      refine ⟨st, by simp only [initLoop, hnot, if_false], ?_, ?_, rfl, fun e he => Or.inl he⟩
      · rw [hdrop, htake]; simp [keptArgs]
      · rw [hdrop, hac, hin]; simp [keptArgs]

/-- The function `init` on well-formed arguments: with SSE4.1 and both
pointers given, `argv[0]` present and every option with a value that is read
as an option followed by its operand, `init` returns, the counted arguments
are `argv[0]` and the kept ones, and every read of the loop is below `ac`. -/
theorem init_spec (atoi : String → Int) (st : InitState) (n : Nat)
    (hac : st.ac = n) (h1 : 1 ≤ n) (hn : n ≤ st.av.length)
    (hops : operandsPresent (st.args.drop 1) = true) :
    ∃ st', init atoi true true st = .done st' ∧
      st'.args = st.args.take 1 ++ keptArgs (st.args.drop 1) ∧
      st'.ac = ((1 + (keptArgs (st.args.drop 1)).length : Nat) : Int) ∧
      st'.av.length = st.av.length ∧
      (∀ e, e ∈ st'.reads → e ∈ st.reads ∨ (e.1 : Int) < e.2) := by
  have hinit : init atoi true true st = initLoop atoi n 1 st := by
    simp only [init, hac, Int.toNat_natCast]
    rfl
  rw [hinit]
  exact initLoop_spec atoi n 1 st n hac h1 hn (by omega) hops

/-- C14 (divergence of the code): on the command line
`prog --osp:debug foo --osp:loglevel` with `ac = 4`, whatever `atoi` returns,
`init` ends with `ac = 1` and the counted vector `prog` alone: the unknown
argument `foo`, which is neither a recognized option nor the operand of one,
is no longer among the remaining arguments, while the arguments to be kept are
`foo`. The trailing `--osp:loglevel` is found at index 2 when `ac` is 3, its
operand is read at index 3, and `removeArgs(ac,av,2,2)` lowers `ac` to 1. -/
theorem init_trailing_option_drops_unknown (atoi : String → Int) :
    keptArgs (exampleTrailingOption.args.drop 1) = ["foo"] ∧
    ∃ st', init atoi true true exampleTrailingOption = .done st' ∧
      st'.ac = 1 ∧ st'.args = ["prog"] ∧
      st'.av = ["prog", "foo", "--osp:loglevel", "--osp:loglevel"] ∧
      (2, (3 : Int)) ∈ st'.reads ∧ (3, (3 : Int)) ∈ st'.reads := by
  refine ⟨by decide, InitState.mk 1 ["prog", "foo", "--osp:loglevel", "--osp:loglevel"]
      true 1 (atoi "--osp:loglevel") [(1, 4), (2, 4), (3, 4), (1, 3), (2, 3), (3, 3)],
      rfl, rfl, rfl, rfl, by simp, by simp⟩

/-- C19: for every argument vector of `ac = n ≥ 1` entries in which every
option with a value (`--osp:loglevel`, `--osp:numthreads`, `--osp:num-threads`)
that is read as an option is followed by one more argument, the option loop of
`init` ends within its `ac` iterations without undefined behaviour, every read
`av[j]` it makes happens at an index `j` below the value of `ac` at that
moment, `argv[0]` is still the first entry, and the final `ac` is at least
1. -/
theorem init_option_loop_safe (atoi : String → Int) (st : InitState) (n : Nat)
    (hac : st.ac = n) (h1 : 1 ≤ n) (hn : n ≤ st.av.length) (hreads : st.reads = [])
    (hops : operandsPresent (st.args.drop 1) = true) :
    ∃ st', init atoi true true st = .done st' ∧
      (∀ j c, (j, c) ∈ st'.reads → (j : Int) < c) ∧
      st'.av[0]? = st.av[0]? ∧ st'.args[0]? = st.args[0]? ∧
      1 ≤ st'.ac := by
  obtain ⟨st', hrun, hargs', hac', -, hreads'⟩ := init_spec atoi st n hac h1 hn hops
  obtain ⟨hargs, hlen, hget⟩ := args_facts st n hac hn
  have hhead : st'.args[0]? = st.args[0]? := by
    rw [hargs', List.getElem?_append_left (by rw [List.length_take]; omega),
      List.getElem?_take, if_pos (by omega)]
  refine ⟨st', hrun, ?_, ?_, hhead, by rw [hac']; omega⟩
  · intro j c hjc
    rcases hreads' (j, c) hjc with h | h
    · rw [hreads] at h
      exact absurd h (List.not_mem_nil _)
    · exact h
  · have h0 : st'.args[0]? = st'.av[0]? := by
      unfold InitState.args
      rw [hac', Int.toNat_natCast, List.getElem?_take, if_pos (by omega)]
    rw [← h0, hhead, hget 0 (by omega)]

/-- C19 on the command line `prog a --osp:loglevel 3 b --osp:vv c`. -/
theorem init_option_loop_safe_witness :
    ∃ st', init exampleAtoi true true exampleArgv = .done st' ∧
      (∀ j c, (j, c) ∈ st'.reads → (j : Int) < c) ∧
      st'.av[0]? = exampleArgv.av[0]? ∧ st'.args[0]? = exampleArgv.args[0]? ∧
      1 ≤ st'.ac :=
  init_option_loop_safe exampleAtoi exampleArgv 7 rfl (by decide) (by decide) rfl (by decide)

/-- The command line `prog a --osp:loglevel 3 b --osp:vv c` after `init`: the
unknown arguments `a`, `b`, `c` stay behind `prog`, and the log level is that
of the last option. -/
theorem init_exampleArgv :
    ∃ st', init exampleAtoi true true exampleArgv = .done st' ∧
      st'.args = ["prog", "a", "b", "c"] ∧ st'.ac = 4 ∧ st'.logLevel = 2 ∧
      st'.debugMode = false ∧ st'.numThreads = 0 := by
  refine ⟨InitState.mk 4 ["prog", "a", "b", "c", "c", "--osp:vv", "c"] false 0 2
      [(1, 7), (2, 7), (3, 7), (4, 7), (5, 7), (6, 7), (2, 5), (3, 5), (4, 5), (3, 4)],
      by decide, by decide,
      rfl, rfl, rfl, rfl⟩

end ospray
